import Mathlib

/-!
Verification development for the news-aggregator deduplication core
(backend/src/models/NewsRaw.ts, backend/src/services/deduplication.ts,
backend/src/services/RSSDeduplication.ts).

The TypeScript code is embedded shallowly:

* JS strings are Lean `String` values; the character-level operations
  (toLowerCase, trim, regex replaces, split) are modelled on `List Char`
  for the character repertoire the code actually handles (ASCII plus the
  Cyrillic letters appearing in the stop-word lists and the typographic
  quotes/dashes named in the regexes).
* JS numbers carrying similarity scores are modelled as `ℚ`.  All rational
  arithmetic is written with `mkRat` / `Rat.divInt` (exact division) so
  that concrete runs reduce inside the kernel.
* Database and search-engine calls are inputs: a query result is passed to
  the embedded function as an explicit list, and fallible collaborator
  calls are `Except String` values describing the outcome of the call.
* The SHA-256 digest of generateContentHash is modelled by an abstract
  `digest` parameter; the randomized placeholder hash produced for short
  content is modelled as `Option.none` together with a hash-comparison
  function on which `none` never equals anything (fresh random hashes
  collide with nothing, by design).
-/

namespace JsStr

/-- Whitespace class of the JS regexes (`\s`) and of trim, restricted to the
whitespace characters that occur in feed text. -/
def jsIsSpace (c : Char) : Bool :=
  c = ' ' ∨ c = '\t' ∨ c = '\n' ∨ c = '\r' ∨ c = '\x0b' ∨ c = '\x0c'

/-- Word-character class of the JS regexes (`\w` = ASCII letters, digits and
underscore; without the unicode flag JS `\w` does not include non-ASCII letters). -/
def isWordChar (c : Char) : Bool :=
  ('a' ≤ c ∧ c ≤ 'z') ∨ ('A' ≤ c ∧ c ≤ 'Z') ∨ ('0' ≤ c ∧ c ≤ '9') ∨ c = '_'

/-- JS String.prototype.toLowerCase, for the ASCII and Cyrillic letters the
pipeline encounters. -/
def jsLowerChar (c : Char) : Char :=
  if 'A' ≤ c ∧ c ≤ 'Z' then Char.ofNat (c.toNat + 32)
  else if c = 'Ё' then 'ё'
  else if 'А' ≤ c ∧ c ≤ 'Я' then Char.ofNat (c.toNat + 32)
  else c

def jsToLower (s : String) : String := ⟨s.data.map jsLowerChar⟩

def trimChars (cs : List Char) : List Char :=
  ((cs.dropWhile jsIsSpace).reverse.dropWhile jsIsSpace).reverse

/-- JS String.prototype.trim. -/
def jsTrim (s : String) : String := ⟨trimChars s.data⟩

/-- replace(/\s+/g, ` `): every maximal run of whitespace becomes a single
space.  The boolean argument records whether the previous character was
part of a whitespace run. -/
def collapseAux : Bool → List Char → List Char
  | _, [] => []
  | prev, c :: cs =>
    if jsIsSpace c then
      if prev then collapseAux true cs else ' ' :: collapseAux true cs
    else c :: collapseAux false cs

def collapseSpaces (s : String) : String := ⟨collapseAux false s.data⟩

/-- replace(/[^\w\s]/g, ``): delete every character that is neither a word
character nor whitespace. -/
def keepWordSpace (s : String) : String :=
  ⟨s.data.filter (fun c => isWordChar c ∨ jsIsSpace c)⟩

/-- JS String.prototype.split(` `): split on every single space, keeping
empty fields, like the source does after collapsing whitespace. -/
def splitSpaceAux : List Char → List Char → List String
  | [], acc => [⟨acc.reverse⟩]
  | c :: cs, acc =>
    if c = ' ' then ⟨acc.reverse⟩ :: splitSpaceAux cs []
    else splitSpaceAux cs (c :: acc)

def splitSpace (s : String) : List String := splitSpaceAux s.data []

/-- Exact rational addition, written through `mkRat` so that concrete runs
reduce inside the kernel (the library `Rat.add` is irreducible).  Proved
equal to `+` in `ratAdd_eq`. -/
def ratAdd (a b : ℚ) : ℚ := mkRat (a.num * b.den + b.num * a.den) (a.den * b.den)

/-- Exact rational multiplication through `mkRat`; proved equal to `*` in
`ratMul_eq`. -/
def ratMul (a b : ℚ) : ℚ := mkRat (a.num * b.num) (a.den * b.den)

/-- Exact rational division (JS `/` on the exact values the model carries);
division by zero yields 0, and `ratDiv_eq` proves it equal to `/`. -/
def ratDiv (a b : ℚ) : ℚ := Rat.divInt (a.num * b.den) (a.den * b.num)

/-- Math.min on scores; equal to `min` by `mathMin_eq`. -/
def mathMin (a b : ℚ) : ℚ := if a ≤ b then a else b

/-- Math.max on scores; equal to `max` by `mathMax_eq`. -/
def mathMax (a b : ℚ) : ℚ := if a ≤ b then b else a

theorem ratAdd_eq (a b : ℚ) : ratAdd a b = a + b := by
  have h1 : ((a.den : ℚ)) ≠ 0 := Nat.cast_ne_zero.mpr a.den_nz
  have h2 : ((b.den : ℚ)) ≠ 0 := Nat.cast_ne_zero.mpr b.den_nz
  rw [ratAdd, Rat.mkRat_eq_div]
  conv_rhs => rw [← Rat.num_div_den a, ← Rat.num_div_den b]
  push_cast
  field_simp

theorem ratMul_eq (a b : ℚ) : ratMul a b = a * b := by
  have h1 : ((a.den : ℚ)) ≠ 0 := Nat.cast_ne_zero.mpr a.den_nz
  have h2 : ((b.den : ℚ)) ≠ 0 := Nat.cast_ne_zero.mpr b.den_nz
  rw [ratMul, Rat.mkRat_eq_div]
  conv_rhs => rw [← Rat.num_div_den a, ← Rat.num_div_den b]
  push_cast
  field_simp

theorem ratDiv_eq (a b : ℚ) : ratDiv a b = a / b := by
  rw [ratDiv, Rat.divInt_eq_div]
  rcases eq_or_ne b 0 with hb | hb
  · subst hb; simp
  · have h1 : ((a.den : ℚ)) ≠ 0 := Nat.cast_ne_zero.mpr a.den_nz
    have h2 : ((b.den : ℚ)) ≠ 0 := Nat.cast_ne_zero.mpr b.den_nz
    have h3 : ((b.num : ℚ)) ≠ 0 := by
      exact_mod_cast Rat.num_ne_zero.mpr hb
    conv_rhs => rw [← Rat.num_div_den a, ← Rat.num_div_den b]
    push_cast
    field_simp

theorem mathMin_eq (a b : ℚ) : mathMin a b = min a b := by
  rw [mathMin, min_def]

theorem mathMax_eq (a b : ℚ) : mathMax a b = max a b := by
  rw [mathMax, max_def]

end JsStr

open JsStr

namespace OpenSearchService

/-- calculateSimpleSimilarity (models/NewsRaw.ts, OpenSearchService).
Normalize both strings (lowercase, trim, strip non-word characters,
collapse whitespace); 1.0 on normalized equality; otherwise the Jaccard
index of the sets of tokens longer than 2 characters, 0 if either token
set is empty or either input is falsy (empty). -/
def calculateSimpleSimilarity (text1 text2 : String) : ℚ :=
  if text1 = "" ∨ text2 = "" then 0
  else
    let normalize := fun (t : String) => collapseSpaces (keepWordSpace (jsTrim (jsToLower t)))
    let norm1 := normalize text1
    let norm2 := normalize text2
    if norm1 = norm2 then 1
    else
      let words1 := (splitSpace norm1).filter (fun w => w.length > 2)
      let words2 := (splitSpace norm2).filter (fun w => w.length > 2)
      if words1 = [] ∨ words2 = [] then 0
      else
        let set1 := words1.dedup
        let set2 := words2.dedup
        let intersection := set1.filter (fun x => x ∈ set2)
        let union := (set1 ++ set2).dedup
        mkRat intersection.length union.length

/-- Character class `[«»\"\"„']` of calculateDetailedSimilarity (quotes,
removed). -/
def isDetQuote (c : Char) : Bool :=
  c = '«' ∨ c = '»' ∨ c = '\"' ∨ c = '„' ∨ c = '\''

/-- Character class `[—–-]` of calculateDetailedSimilarity (dashes, replaced
by a space). -/
def isDetDash (c : Char) : Bool :=
  c = '—' ∨ c = '–' ∨ c = '-'

/-- Character class `[.,!?;:()]` of calculateDetailedSimilarity (punctuation,
replaced by a space). -/
def isDetPunct (c : Char) : Bool :=
  c = '.' ∨ c = ',' ∨ c = '!' ∨ c = '?' ∨ c = ';' ∨ c = ':' ∨ c = '(' ∨ c = ')'

/-- Stop-word list of calculateDetailedSimilarity. -/
def detStopWords : List String :=
  ["для", "как", "что", "это", "все", "она", "они", "его", "её", "их",
   "был", "была", "были", "при", "над", "под", "про", "без", "через"]

/-- Normalization chain of calculateDetailedSimilarity: lowercase, delete
quotes, dashes and punctuation to spaces, collapse whitespace, trim. -/
def detNormalize (t : String) : String :=
  jsTrim (collapseSpaces
    ⟨((jsToLower t).data.filter (fun c => ¬ isDetQuote c)).map
      (fun c => if isDetDash c then ' ' else if isDetPunct c then ' ' else c)⟩)

def detGetWords (t : String) : List String :=
  ((splitSpace t).filter (fun w => w.length > 2)).filter
    (fun w => ¬ (w ∈ detStopWords))

/-- calculateDetailedSimilarity (models/NewsRaw.ts, OpenSearchService).
Richer normalization, stop-word removal, then the arithmetic mean of the
Jaccard index and the minimum coverage of either side. -/
def calculateDetailedSimilarity (text1 text2 : String) : ℚ :=
  if text1 = "" ∨ text2 = "" then 0
  else
    let norm1 := detNormalize text1
    let norm2 := detNormalize text2
    let words1 := detGetWords norm1
    let words2 := detGetWords norm2
    if words1 = [] ∨ words2 = [] then 0
    else
      let set1 := words1.dedup
      let set2 := words2.dedup
      let intersection := set1.filter (fun x => x ∈ set2)
      let jaccardSimilarity := mkRat intersection.length (set1 ++ set2).dedup.length
      let coverage1 := mkRat intersection.length set1.length
      let coverage2 := mkRat intersection.length set2.length
      ratDiv (ratAdd jaccardSimilarity (mathMin coverage1 coverage2)) 2

/-- The search-index projection of an article, restricted to the fields the
duplicate decision reads.  `title_hash` is the stored hash field of an
indexed document (`none` models a document indexed without one). -/
structure NewsDocument where
  title : String
  content : String
  title_hash : Option String
  deriving DecidableEq, Repr

/-- DuplicationResult of checkForDuplicates; `method` is one of the strings
used by the source: hash, text_similarity, none. -/
structure DuplicationResult where
  isDuplicate : Bool
  original : Option NewsDocument
  similarity_score : Option ℚ
  method : String
  candidates : List NewsDocument
  deriving DecidableEq, Repr

/-- Per-hit body of the hash-match loop of checkForDuplicates: the enhanced
validation of one exact-hash hit.  `titleHash` is the hash computed from the
incoming title; `orig` is the matched stored document.  Returns the
DuplicationResult the loop returns on a qualifying hit, `none` otherwise. -/
def hashHitDecision (titleText contentText titleHash : String)
    (orig : NewsDocument) : Option DuplicationResult :=
  let matchType := if orig.title_hash = some titleHash then "title_hash" else "content_hash"
  let originalTitle := jsTrim (jsToLower orig.title)
  let currentTitle := jsTrim (jsToLower titleText)
  let simpleTitleSimilarity := calculateSimpleSimilarity originalTitle currentTitle
  let detailedTitleSimilarity := calculateDetailedSimilarity originalTitle currentTitle
  let combinedSimilarity := calculateDetailedSimilarity
    (originalTitle ++ " " ++ orig.content) (currentTitle ++ " " ++ contentText)
  let isHashDuplicate := matchType = "title_hash" ∧ orig.title_hash = some titleHash
  let isSimpleDuplicate := simpleTitleSimilarity > mkRat 9 10
  let isDetailedDuplicate := detailedTitleSimilarity > mkRat 7 10
  let isCombinedDuplicate := combinedSimilarity > mkRat 1 2 ∧ detailedTitleSimilarity > mkRat 1 2
  if isHashDuplicate ∨ isSimpleDuplicate ∨ isDetailedDuplicate ∨ isCombinedDuplicate then
    some { isDuplicate := true, original := some orig,
           similarity_score := some (mathMax simpleTitleSimilarity
             (mathMax detailedTitleSimilarity combinedSimilarity)),
           method := "hash", candidates := [] }
  else none

/-- Semantic (more-like-this) stage of checkForDuplicates.  `semHits` is the
ranked hit list returned by the search engine together with each raw
relevance score; the engine itself has already applied the 7-day filter and
the 2.0 min_score floor. -/
def semanticStage (titleText contentText : String)
    (semHits : List (NewsDocument × ℚ)) : DuplicationResult :=
  match semHits with
  | [] =>
    { isDuplicate := false, original := none, similarity_score := none,
      method := "none", candidates := [] }
  | topMatch :: rest =>
    let rawScore := topMatch.2
    let similarityScore := ratDiv rawScore 10
    if similarityScore > mkRat 3 2 then
      let contentSimilarity := calculateDetailedSimilarity
        (topMatch.1.title ++ " " ++ topMatch.1.content)
        (titleText ++ " " ++ contentText)
      if contentSimilarity > mkRat 1 2 then
        { isDuplicate := true, original := some topMatch.1,
          similarity_score := some similarityScore,
          method := "text_similarity", candidates := rest.map Prod.fst }
      else
        { isDuplicate := false, original := none, similarity_score := none,
          method := "none", candidates := (topMatch :: rest).map Prod.fst }
    else
      { isDuplicate := false, original := none, similarity_score := none,
        method := "none", candidates := (topMatch :: rest).map Prod.fst }

/-- checkForDuplicates (models/NewsRaw.ts).  The two search queries are
inputs: `hashHits` is the result list of the exact content/title-hash
boolean query, `semHits` the result of the more-like-this query, and
`titleHash` the digest computed from the incoming title.  The error path of
the source (catch, returning no-duplicate) is not modelled because no claim
mentions it. -/
def checkForDuplicates (news : NewsDocument) (titleHash : String)
    (hashHits : List NewsDocument) (semHits : List (NewsDocument × ℚ)) :
    DuplicationResult :=
  let titleText := news.title
  let contentText := news.content
  let combinedText := titleText ++ " " ++ contentText
  let hasEnoughContent := (jsTrim combinedText).length ≥ 20
  if hasEnoughContent then
    match (hashHits.take 3).findSome? (hashHitDecision titleText contentText titleHash) with
    | some result => result
    | none => semanticStage titleText contentText semHits
  else semanticStage titleText contentText semHits

end OpenSearchService

namespace JsStr

/-- Decimal digits of a natural number (fuel-driven so that it reduces
structurally; the fuel is the number itself, which bounds the digit count). -/
def natDigitsAux : ℕ → ℕ → List Char
  | 0, _ => []
  | _, 0 => []
  | fuel + 1, n =>
    natDigitsAux fuel (n / 10) ++ [Char.ofNat (48 + n % 10)]

def natToStr (n : ℕ) : String :=
  if n = 0 then "0" else ⟨natDigitsAux n n⟩

/-- Math.round on the nonnegative scores the pipeline renders:
floor of q + 1/2, computed on the numerator/denominator pair. -/
def jsRoundPos (q : ℚ) : ℕ := (2 * q.num.toNat + q.den) / (2 * q.den)

/-- Rendering used in the reason traces: Math.round(q * 100) as a string
followed by a percent sign. -/
def percentStr (q : ℚ) : String := natToStr (jsRoundPos (ratMul q 100)) ++ "%"

/-- Number.prototype.toFixed(2) for the nonnegative scores the pipeline
renders into reason strings. -/
def toFixed2 (q : ℚ) : String :=
  let n := jsRoundPos (ratMul q 100)
  natToStr (n / 100) ++ "." ++
    (if n % 100 < 10 then "0" ++ natToStr (n % 100) else natToStr (n % 100))

end JsStr

namespace NewsDeduplicationService

open OpenSearchService

/-- Observable side effects of one processNews call: how many times the
duplicate check ran, how many documents were written to the document store
(NewsNormalized.create), and how many indexNews calls were attempted. -/
structure Effects where
  dedupCalls : ℕ
  storeCreates : ℕ
  indexCalls : ℕ
  deriving DecidableEq, Repr

structure ProcessResult where
  saved : Bool
  reason : String
  original : Option NewsDocument
  deriving DecidableEq, Repr

/-- Outcomes of the collaborator calls a single processNews run can make;
an `error` value means the corresponding awaited call throws. -/
structure Collaborators where
  dedup : Except String DuplicationResult
  storeCreate : Except String Unit
  indexNews : Except String Unit
  fallbackCreate : Except String Unit

/-- JS guard on line 73 of services/deduplication.ts:
`duplicationResult.similarity_score && duplicationResult.similarity_score >= 1.5`.
An absent score and a zero score are falsy. -/
def scoreGate (r : DuplicationResult) : Bool :=
  match r.similarity_score with
  | some s => decide (s ≠ 0) && decide (s ≥ mkRat 3 2)
  | none => false

def dupReason (r : DuplicationResult) : String :=
  "Confirmed duplicate (" ++ r.method ++ ", score: " ++
    (match r.similarity_score with
     | some s => toFixed2 s
     | none => "undefined") ++ ")"

/-- The try block of processNews (services/deduplication.ts, lines 17-124):
title check, duplicate check, rejection gate, store save, index.  An
`error` result models a thrown exception reaching the catch block, paired
with the effects performed before the throw. -/
def mainPhase (title : String) (env : Collaborators) :
    Except (String × Effects) (ProcessResult × Effects) :=
  if jsTrim title = "" then Except.error ("Article has no title", ⟨0, 0, 0⟩)
  else
    match env.dedup with
    | Except.error e => Except.error (e, ⟨1, 0, 0⟩)
    | Except.ok dup =>
      if dup.isDuplicate && scoreGate dup then
        Except.ok ({ saved := false, reason := dupReason dup,
                     original := dup.original }, ⟨1, 0, 0⟩)
      else
        match env.storeCreate with
        | Except.error e => Except.error (e, ⟨1, 0, 0⟩)
        | Except.ok _ =>
          match env.indexNews with
          | Except.error e => Except.error (e, ⟨1, 1, 1⟩)
          | Except.ok _ =>
            Except.ok ({ saved := true, reason := "New article saved successfully",
                         original := none }, ⟨1, 1, 1⟩)

/-- processNews (services/deduplication.ts): the try block above plus the
catch block, whose fallback saves to the document store only. -/
def processNews (title : String) (env : Collaborators) : ProcessResult × Effects :=
  match mainPhase title env with
  | Except.ok r => r
  | Except.error (_, eff) =>
    match env.fallbackCreate with
    | Except.ok _ =>
      ({ saved := true, reason := "Saved to MongoDB (OpenSearch failed)", original := none },
       { eff with storeCreates := eff.storeCreates + 1 })
    | Except.error fe =>
      ({ saved := false, reason := "Save failed: " ++ fe, original := none }, eff)

end NewsDeduplicationService

namespace RSSDeduplicationService

/-- Levenshtein distance as the spec words it: the classic recursive
characterization (delete, insert, substitute).  This is the reference
definition; the DP matrix of calculateStringSimilarity is embedded below as
`levDistance` and proved equal to this in `levDistance_eq_lev`. -/
def lev : List Char → List Char → ℕ
  | [], ys => ys.length
  | _ :: xs, [] => xs.length + 1
  | x :: xs, y :: ys =>
    if x = y then lev xs ys
    else 1 + min (lev xs ys) (min (lev (x :: xs) ys) (lev xs (y :: ys)))
termination_by xs ys => xs.length + ys.length

theorem lev_nil (ys : List Char) : lev [] ys = ys.length := by
  simp [lev]

theorem lev_nil' (xs : List Char) : lev xs [] = xs.length := by
  cases xs <;> simp [lev]

theorem lev_cons (x y : Char) (xs ys : List Char) :
    lev (x :: xs) (y :: ys) =
      if x = y then lev xs ys
      else 1 + min (lev xs ys) (min (lev (x :: xs) ys) (lev xs (y :: ys))) := by
  simp [lev]

theorem lev_self : ∀ xs : List Char, lev xs xs = 0
  | [] => by simp [lev_nil]
  | x :: xs => by rw [lev_cons, if_pos rfl, lev_self xs]

/-- Symmetry of the recursive Levenshtein distance. -/
theorem lev_comm : ∀ xs ys : List Char, lev xs ys = lev ys xs
  | [], ys => by rw [lev_nil, lev_nil']
  | x :: xs, [] => by rw [lev_nil, lev_nil']
  | x :: xs, y :: ys => by
    rw [lev_cons, lev_cons, lev_comm xs ys, lev_comm (x :: xs) ys, lev_comm xs (y :: ys)]
    rcases eq_or_ne x y with h | h
    · rw [if_pos h, if_pos h.symm]
    · rw [if_neg h, if_neg (Ne.symm h)]
      omega
termination_by xs ys => xs.length + ys.length

/-- Distance from a single character: the length minus one exactly when the
character occurs. -/
theorem lev_single (a : Char) : ∀ zs : List Char,
    lev [a] zs = if a ∈ zs then zs.length - 1 else max zs.length 1
  | [] => by simp [lev_nil']
  | z :: zs => by
    rw [lev_cons, lev_nil, lev_nil, lev_single a zs]
    rcases eq_or_ne a z with h | h
    · subst h
      simp
    · rw [if_neg h]
      have hmem : a ∈ z :: zs ↔ a ∈ zs := by
        simp [List.mem_cons, h]
      by_cases hm : a ∈ zs
      · have h1 : zs ≠ [] := by rintro rfl; simp at hm
        have h2 : 1 ≤ zs.length := List.length_pos.mpr h1
        simp only [hmem, hm, if_pos, List.length_cons]
        omega
      · simp only [hmem, hm, if_neg, not_false_iff, List.length_cons]
        rcases zs with _ | ⟨w, ws⟩ <;> simp <;> omega

/-- Transposing a three-by-three minimum: the grouping by rows equals the
grouping by columns. -/
theorem min_matrix_transpose (p q r s t u v w z : ℕ) :
    min (min p (min q r)) (min (min s (min t u)) (min v (min w z))) =
      min (min p (min s v)) (min (min q (min t w)) (min r (min u z))) := by
  apply le_antisymm <;>
    simp only [le_min_iff, min_le_iff, le_refl, true_or, or_true, and_self]

set_option maxHeartbeats 1600000 in
/-- The two-sided recurrence: the Levenshtein recursion can also peel the
last characters.  This is the fact that lets the row-wise DP of the source,
which walks the strings front to back, compute the recursive distance. -/
theorem lev_snoc (a b : Char) : ∀ xs ys : List Char,
    lev (xs ++ [a]) (ys ++ [b]) =
      if a = b then lev xs ys
      else 1 + min (lev xs ys) (min (lev (xs ++ [a]) ys) (lev xs (ys ++ [b])))
  | [], ys => by
    simp only [List.nil_append]
    rw [lev_single, lev_single, lev_nil, lev_nil]
    rcases eq_or_ne a b with h | h
    · subst h
      simp
    · rw [if_neg h]
      have hmem : a ∈ ys ++ [b] ↔ a ∈ ys := by
        simp [List.mem_append, h]
      by_cases hm : a ∈ ys
      · have h1 : ys ≠ [] := by rintro rfl; simp at hm
        have h2 : 1 ≤ ys.length := List.length_pos.mpr h1
        simp only [hmem, hm, if_pos, List.length_append, List.length_singleton]
        omega
      · simp only [hmem, hm, if_neg, not_false_iff, List.length_append,
          List.length_singleton]
        rcases ys with _ | ⟨w, ws⟩ <;> simp <;> omega
  | x :: xs, [] => by
    simp only [List.nil_append, List.cons_append]
    rw [lev_comm (x :: (xs ++ [a])) [b], lev_comm (x :: xs) [b],
      lev_single b (x :: (xs ++ [a])), lev_single b (x :: xs),
      lev_nil' (x :: xs), lev_nil' (x :: (xs ++ [a]))]
    simp only [List.length_cons, List.length_append, List.length_singleton,
      List.length_nil]
    by_cases hab : a = b
    · subst hab
      rw [if_pos (show a ∈ x :: (xs ++ [a]) by simp), if_pos rfl]
      omega
    · have hba : b ≠ a := fun h => hab h.symm
      have hmem2 : (b ∈ x :: (xs ++ [a])) ↔ b ∈ x :: xs := by
        simp [List.mem_cons, List.mem_append, hba]
      rw [if_neg hab]
      simp only [hmem2]
      by_cases hm : b ∈ x :: xs
      · rw [if_pos hm, if_pos hm]
        omega
      · rw [if_neg hm, if_neg hm]
        omega
  | x :: xs, y :: ys => by
    have ih1 := lev_snoc a b xs ys
    have ih2 := lev_snoc a b (x :: xs) ys
    have ih3 := lev_snoc a b xs (y :: ys)
    simp only [List.cons_append] at ih2 ih3 ⊢
    have e0 := lev_cons x y (xs ++ [a]) (ys ++ [b])
    have e1 := lev_cons x y xs ys
    have e2 := lev_cons x y (xs ++ [a]) ys
    have e3 := lev_cons x y xs (ys ++ [b])
    set A0 := lev (x :: (xs ++ [a])) (y :: (ys ++ [b]))
    set A1 := lev (xs ++ [a]) (ys ++ [b])
    set A2 := lev (x :: (xs ++ [a])) (ys ++ [b])
    set A3 := lev (xs ++ [a]) (y :: (ys ++ [b]))
    set A4 := lev (x :: xs) (y :: ys)
    set A5 := lev (x :: (xs ++ [a])) (y :: ys)
    set A6 := lev (x :: xs) (y :: (ys ++ [b]))
    set p := lev xs ys
    set q := lev (xs ++ [a]) ys
    set r := lev xs (ys ++ [b])
    set s := lev (x :: xs) ys
    set t := lev (x :: (xs ++ [a])) ys
    set u := lev (x :: xs) (ys ++ [b])
    set v := lev xs (y :: ys)
    set w := lev (xs ++ [a]) (y :: ys)
    set z0 := lev xs (y :: (ys ++ [b]))
    clear_value A0 A1 A2 A3 A4 A5 A6 p q r s t u v w z0
    by_cases hab : a = b <;> by_cases hxy : x = y
    · rw [if_pos hxy] at e0 e1 e2 e3
      rw [if_pos hab] at ih1 ih2 ih3 ⊢
      omega
    · rw [if_neg hxy] at e0 e1 e2 e3
      rw [if_pos hab] at ih1 ih2 ih3 ⊢
      omega
    · rw [if_pos hxy] at e0 e1 e2 e3
      rw [if_neg hab] at ih1 ih2 ih3 ⊢
      omega
    · rw [if_neg hxy] at e0 e1 e2 e3
      rw [if_neg hab] at ih1 ih2 ih3 ⊢
      rw [e0, ih1, ih2, ih3, e1, e2, e3]
      simp only [← min_add_add_left]
      exact min_matrix_transpose _ _ _ _ _ _ _ _ _
termination_by xs ys => xs.length + ys.length

/-- Reversing both strings preserves the distance. -/
theorem lev_reverse : ∀ xs ys : List Char, lev xs.reverse ys.reverse = lev xs ys
  | [], ys => by simp [lev_nil, lev_nil']
  | x :: xs, [] => by simp [lev_nil, lev_nil']
  | x :: xs, y :: ys => by
    have h1 := lev_reverse xs ys
    have h2 := lev_reverse (x :: xs) ys
    have h3 := lev_reverse xs (y :: ys)
    simp only [List.reverse_cons] at h2 h3 ⊢
    rw [lev_snoc x y xs.reverse ys.reverse, h1, h2, h3, lev_cons]
termination_by xs ys => xs.length + ys.length


/-- Inner loop of the Levenshtein matrix of calculateStringSimilarity
(services/RSSDeduplication.ts, lines 103-114): one row of the DP table,
walked left to right.  `diag` is the cell one row up and one column left,
`ups` the rest of the previous row, `left` the cell just written. -/
def levGo (c2 : Char) : List Char → ℕ → List ℕ → ℕ → List ℕ
  | [], _, _, _ => []
  | _ :: _, _, [], _ => []
  | c1 :: cs, diag, up :: ups, left =>
    let cell := if c2 = c1 then diag else 1 + min diag (min left up)
    cell :: levGo c2 cs up ups cell

/-- Row `i` of the matrix: the leading cell `matrix[i][0] = i` followed by the
inner loop over the first string. -/
def levNext (s1 : List Char) (c2 : Char) (i : ℕ) (prev : List ℕ) : List ℕ :=
  i :: levGo c2 s1 (prev.headD 0) prev.tail i

/-- Outer loop: fold the rows over the second string, starting from row 0. -/
def levRows (s1 : List Char) : List Char → ℕ → List ℕ → List ℕ
  | [], _, row => row
  | c2 :: rest, i, row => levRows s1 rest (i + 1) (levNext s1 c2 i row)

/-- The Levenshtein distance as computed by the source: the bottom-right cell
`matrix[m][n]` of the DP table. -/
def levDistance (s1 s2 : List Char) : ℕ :=
  (levRows s1 s2 1 (List.range (s1.length + 1))).getLastD 0

/-- Reversed prefixes of the second argument, each extending `Y`:
`revPrefs Y [c, d] = [c :: Y, d :: c :: Y]`. -/
def revPrefs : List Char → List Char → List (List Char)
  | _, [] => []
  | Y, c :: cs => (c :: Y) :: revPrefs (c :: Y) cs

theorem levGo_spec (c2 : Char) (R2 : List Char) : ∀ (cs Y : List Char),
    levGo c2 cs (lev R2 Y) ((revPrefs Y cs).map (lev R2)) (lev (c2 :: R2) Y) =
      (revPrefs Y cs).map (lev (c2 :: R2))
  | [], _ => rfl
  | c1 :: cs, Y => by
    simp only [revPrefs, List.map_cons, levGo]
    rw [show (if c2 = c1 then lev R2 Y
          else 1 + min (lev R2 Y) (min (lev (c2 :: R2) Y) (lev R2 (c1 :: Y)))) =
        lev (c2 :: R2) (c1 :: Y) from (lev_cons c2 c1 R2 Y).symm]
    rw [levGo_spec c2 R2 cs (c1 :: Y)]

theorem levNext_spec (s1 : List Char) (c2 : Char) (R2 : List Char) :
    levNext s1 c2 (R2.length + 1) ((([] : List Char) :: revPrefs [] s1).map (lev R2)) =
      (([] : List Char) :: revPrefs [] s1).map (lev (c2 :: R2)) := by
  unfold levNext
  simp only [List.map_cons, List.headD_cons, List.tail_cons]
  rw [show R2.length + 1 = lev (c2 :: R2) [] by rw [lev_nil']; rfl]
  rw [levGo_spec c2 R2 s1 []]

theorem levRows_spec (s1 : List Char) : ∀ (rest R2 : List Char),
    levRows s1 rest (R2.length + 1) ((([] : List Char) :: revPrefs [] s1).map (lev R2)) =
      (([] : List Char) :: revPrefs [] s1).map (lev (rest.reverse ++ R2))
  | [], R2 => by simp [levRows]
  | c2 :: rest, R2 => by
    simp only [levRows]
    rw [levNext_spec s1 c2 R2]
    rw [show R2.length + 1 + 1 = (c2 :: R2).length + 1 by simp]
    rw [levRows_spec s1 rest (c2 :: R2)]
    simp

theorem revPrefs_map_lev_nil_aux : ∀ (cs Y : List Char),
    (revPrefs Y cs).map (lev []) = List.range' (Y.length + 1) cs.length
  | [], _ => rfl
  | c :: cs, Y => by
    simp only [revPrefs, List.map_cons, lev_nil, List.length_cons, List.range'_succ]
    rw [revPrefs_map_lev_nil_aux cs (c :: Y)]
    simp

theorem revPrefs_map_lev_nil (s1 : List Char) :
    (([] : List Char) :: revPrefs [] s1).map (lev []) = List.range (s1.length + 1) := by
  simp only [List.map_cons, lev_nil, List.length_nil]
  rw [revPrefs_map_lev_nil_aux s1 []]
  rw [List.range_eq_range', List.range'_succ]
  simp

theorem revPrefs_getLastD : ∀ (cs Y d : List Char),
    ((Y :: revPrefs Y cs).getLastD d) = cs.reverse ++ Y
  | [], _, _ => rfl
  | c :: cs, Y, d => by
    have ih := revPrefs_getLastD cs (c :: Y) (c :: Y)
    simp only [List.getLastD_cons] at ih
    simp only [revPrefs, List.getLastD_cons]
    rw [ih]
    simp

theorem getLastD_map (f : List Char → ℕ) : ∀ (l : List (List Char)) (d : List Char),
    (l.map f).getLastD (f d) = f (l.getLastD d)
  | [], _ => rfl
  | a :: l, d => by
    simp only [List.map_cons, List.getLastD_cons]
    rw [getLastD_map f l a]

/-- The DP of the source computes the recursive Levenshtein distance. -/
theorem levDistance_eq_lev (s1 s2 : List Char) : levDistance s1 s2 = lev s1 s2 := by
  unfold levDistance
  rw [← revPrefs_map_lev_nil s1]
  rw [show (1 : ℕ) = ([] : List Char).length + 1 by rfl]
  rw [levRows_spec s1 s2 []]
  simp only [List.map_cons, List.getLastD_cons]
  rw [getLastD_map (lev (s2.reverse ++ [])) (revPrefs [] s1) []]
  have hlast := revPrefs_getLastD s1 [] ([] : List Char)
  simp only [List.getLastD_cons] at hlast
  rw [hlast]
  simp only [List.append_nil]
  rw [lev_reverse s2 s1, lev_comm s2 s1]

/-- calculateStringSimilarity (services/RSSDeduplication.ts): Levenshtein
similarity over the lowercased, trimmed inputs; 0 if either raw input is
falsy (empty), 1 on equality after normalization. -/
def calculateStringSimilarity (str1 str2 : String) : ℚ :=
  if str1 = "" ∨ str2 = "" then 0
  else
    let s1 := jsTrim (jsToLower str1)
    let s2 := jsTrim (jsToLower str2)
    if s1 = s2 then 1
    else
      let n := s1.data.length
      let m := s2.data.length
      if n = 0 then (if m = 0 then 1 else 0)
      else if m = 0 then 0
      else
        let distance := levDistance s1.data s2.data
        let maxLength := max n m
        if maxLength = 0 then 1
        else Rat.divInt ((maxLength : ℤ) - distance) maxLength

/-- Split a character list at every occurrence of `sep`, keeping empty
fields (JS String.prototype.split with a single-character separator). -/
def splitCharAux (sep : Char) : List Char → List Char → List (List Char)
  | [], acc => [acc.reverse]
  | c :: cs, acc =>
    if c = sep then acc.reverse :: splitCharAux sep cs []
    else splitCharAux sep cs (c :: acc)

def splitChar (sep : Char) (cs : List Char) : List (List Char) :=
  splitCharAux sep cs []

/-- Split an URL string at the first `://`, returning the scheme characters
and the remainder. -/
def splitScheme : List Char → Option (List Char × List Char)
  | [] => none
  | c :: cs =>
    if c = ':' ∧ cs.take 2 = ['/', '/'] then some ([], cs.drop 2)
    else
      match splitScheme cs with
      | none => none
      | some (pre, post) => some (c :: pre, post)

def isSchemeChar (c : Char) : Bool :=
  c.isAlpha ∨ c.isDigit ∨ c = '+' ∨ c = '-' ∨ c = '.'

def digitsToNat (cs : List Char) : ℕ :=
  cs.foldl (fun n c => 10 * n + (c.toNat - 48)) 0

/-- The WHATWG URL record, restricted to the components the code reads.
`protocol` carries the trailing colon, as in Node. -/
structure URLRec where
  protocol : String
  host : String
  port : String
  path : String
  search : String
  deriving DecidableEq, Repr

def defaultPortOf (protocol : String) : Option ℕ :=
  if protocol = "http:" then some 80
  else if protocol = "https:" then some 443
  else none

/-- Model of the Node `new URL(...)` constructor for the absolute
http(s)-style URLs the service handles: scheme and host are lowercased, an
explicit default port is dropped, an empty path becomes `/`, the fragment is
discarded.  Userinfo, IPv6 hosts, percent-encoding and dot-segment
normalization are outside the modelled fragment; a string without a valid
scheme-authority shape yields `none` (the constructor throws). -/
def parseURL (s : String) : Option URLRec :=
  match splitScheme s.data with
  | none => none
  | some (schemeCs, rest) =>
    if schemeCs ≠ [] ∧ (schemeCs.headD ' ').isAlpha ∧ schemeCs.all isSchemeChar then
      let rest := rest.takeWhile (fun c => c ≠ '#')
      let authority := rest.takeWhile (fun c => c ≠ '/' ∧ c ≠ '?')
      let after := rest.drop authority.length
      if authority = [] then none
      else
        let protocol : String := ⟨(schemeCs.map jsLowerChar) ++ [':']⟩
        let revAuth := authority.reverse
        let portRev := revAuth.takeWhile (fun c => c ≠ ':')
        let hasPort := portRev.length ≠ revAuth.length
        let hostCs := if hasPort then authority.take (authority.length - portRev.length - 1)
          else authority
        let portCs := if hasPort then portRev.reverse else []
        if hostCs = [] then none
        else if hasPort ∧ ¬ portCs.all Char.isDigit then none
        else
          let portNum := digitsToNat portCs
          if hasPort ∧ portCs ≠ [] ∧ portNum > 65535 then none
          else
            let port : String :=
              if portCs = [] then ""
              else if defaultPortOf protocol = some portNum then ""
              else natToStr portNum
            let pathCs := after.takeWhile (fun c => c ≠ '?')
            let queryCs := (after.drop pathCs.length).drop 1
            some { protocol := protocol,
                   host := ⟨hostCs.map jsLowerChar⟩,
                   port := port,
                   path := if pathCs = [] then "/" else ⟨pathCs⟩,
                   search := ⟨queryCs⟩ }
    else none

def urlToString (u : URLRec) : String :=
  u.protocol ++ "//" ++ u.host ++ (if u.port = "" then "" else ":" ++ u.port) ++
    u.path ++ (if u.search = "" then "" else "?" ++ u.search)

/-- The `www.` stripping of normalizeUrl: replace(/^www\./, ``). -/
def stripWww (h : String) : String :=
  if h.data.take 4 = ['w', 'w', 'w', '.'] then ⟨h.data.drop 4⟩ else h

def paramPairs (q : List Char) : List (String × String) :=
  (splitChar '&' q).filterMap fun part =>
    if part = [] then none
    else
      let k := part.takeWhile (fun c => c ≠ '=')
      let v := (part.drop k.length).drop 1
      some (⟨k⟩, ⟨v⟩)

def joinWith (sep : String) : List String → String
  | [] => ""
  | [x] => x
  | x :: xs => x ++ sep ++ joinWith sep xs

/-- The query-parameter sorting of normalizeUrl: keys sorted, each occurrence
serialized with the first value stored under that key (URLSearchParams.get). -/
def sortSearch (q : String) : String :=
  if q = "" then ""
  else
    let pairs := paramPairs q.data
    let keys := (pairs.map Prod.fst).mergeSort (fun a b => decide (a ≤ b))
    joinWith "&" (keys.map fun k =>
      k ++ "=" ++ (((pairs.find? (fun p => p.1 = k)).map Prod.snd).getD ""))

/-- normalizeUrl (services/RSSDeduplication.ts): strip `www.`, lowercase host
and path, strip the trailing slash of a non-root path, strip default ports,
sort query parameters; a malformed URL falls back to plain lowercasing. -/
def normalizeUrl (url : String) : String :=
  match parseURL url with
  | none => jsToLower url
  | some u =>
    let host := jsToLower (stripWww u.host)
    let path := jsToLower u.path
    let path := if path.data.getLast? = some '/' ∧ path.data.length > 1 then
        ⟨path.data.dropLast⟩ else path
    let port := if (u.protocol = "http:" ∧ u.port = "80") ∨
        (u.protocol = "https:" ∧ u.port = "443") then "" else u.port
    let search := sortSearch u.search
    urlToString { protocol := u.protocol, host := host, port := port,
                  path := path, search := search }

/-- extractDomain (services/RSSDeduplication.ts): hostname without `www.`,
lowercased; empty string on a malformed URL. -/
def extractDomain (url : String) : String :=
  match parseURL url with
  | none => ""
  | some u => jsToLower (stripWww u.host)

def isInfixChars (needle : List Char) : List Char → Bool
  | [] => needle = []
  | c :: cs => needle.isPrefixOf (c :: cs) || isInfixChars needle cs

/-- The case-insensitive substring test performed by the store when the code
queries `link: regex(escaped domain, i)`. -/
def containsCI (hay needle : String) : Bool :=
  isInfixChars (jsToLower needle).data (jsToLower hay).data

structure RSSMetadata where
  title : Option String
  description : Option String
  link : Option String
  feedUrl : Option String
  deriving DecidableEq, Repr

/-- A stored feed source, restricted to the fields the dedup reads.  `id`
models the document id. -/
structure SourceRec where
  id : ℕ
  link : String
  metadata : Option RSSMetadata
  deriving DecidableEq, Repr

structure DuplicationCheckResult where
  isDuplicate : Bool
  existingSource : Option SourceRec
  reason : Option String
  confidence : ℚ
  deriving DecidableEq, Repr

/-- JS `x || d` on an optional string: the default replaces both an absent
and an empty (falsy) value. -/
def orDefault (o : Option String) (d : String) : String :=
  match o with
  | some s => if s = "" then d else s
  | none => d

def emptyMetadata : RSSMetadata :=
  { title := none, description := none, link := none, feedUrl := none }

/-- One candidate of the fuzzy stage of checkForDuplicate: the accumulated
confidence and the fired reasons, in source order. -/
def candidateScore (metadata : RSSMetadata) (normalizedUrl : String)
    (source : SourceRec) : ℚ × String :=
  let sourceMetadata := source.metadata
  let titleSimilarity := calculateStringSimilarity
    (metadata.title.getD "") ((sourceMetadata.bind RSSMetadata.title).getD "")
  let c1 : ℚ × List String :=
    if titleSimilarity > mkRat 17 20 then
      (ratMul titleSimilarity (mkRat 2 5),
       ["title similarity: " ++ percentStr titleSimilarity])
    else (0, [])
  let descSimilarity := calculateStringSimilarity
    (metadata.description.getD "") ((sourceMetadata.bind RSSMetadata.description).getD "")
  let c2 : ℚ × List String :=
    if descSimilarity > mkRat 4 5 then
      (ratMul descSimilarity (mkRat 3 10),
       ["description similarity: " ++ percentStr descSimilarity])
    else (0, [])
  let linkSimilarity := calculateStringSimilarity
    (normalizeUrl (metadata.link.getD ""))
    (normalizeUrl ((sourceMetadata.bind RSSMetadata.link).getD ""))
  let c3 : ℚ × List String :=
    if linkSimilarity > mkRat 9 10 then
      (ratMul linkSimilarity (mkRat 3 10),
       ["website link similarity: " ++ percentStr linkSimilarity])
    else (0, [])
  let normalizedExisting := normalizeUrl source.link
  let urlSimilarity := calculateStringSimilarity normalizedUrl normalizedExisting
  let c4 : ℚ × List String :=
    if urlSimilarity > mkRat 4 5 then
      (ratMul urlSimilarity (mkRat 1 5),
       ["URL similarity: " ++ percentStr urlSimilarity])
    else (0, [])
  (ratAdd (ratAdd (ratAdd c1.1 c2.1) c3.1) c4.1,
   joinWith ", " (c1.2 ++ c2.2 ++ c3.2 ++ c4.2))

/-- checkForDuplicate (services/RSSDeduplication.ts).  `sources` is the
stored source collection, in store order; the two store queries (exact link
lookup and same-domain regex lookup) are evaluated against it. -/
def checkForDuplicate (sources : List SourceRec) (newUrl : String)
    (metadata : RSSMetadata) : DuplicationCheckResult :=
  let normalizedUrl := normalizeUrl newUrl
  let domain := extractDomain newUrl
  match sources.find? (fun s => s.link = newUrl ∨ s.link = normalizedUrl) with
  | some exactUrlMatch =>
    { isDuplicate := true, existingSource := some exactUrlMatch,
      reason := some "Exact URL match", confidence := 1 }
  | none =>
    let sameDomainSources := sources.filter (fun s => containsCI s.link domain)
    if sameDomainSources = [] then
      { isDuplicate := false, existingSource := none, reason := none, confidence := 0 }
    else
      let best := sameDomainSources.foldl
        (fun (acc : ℚ × Option SourceRec × String) source =>
          let sc := candidateScore metadata normalizedUrl source
          if sc.1 > acc.1 then (sc.1, some source, sc.2) else acc)
        (0, none, "")
      { isDuplicate := decide (best.1 > mkRat 3 4),
        existingSource := best.2.1,
        reason := some (if best.2.2 = "" then "Content similarity analysis" else best.2.2),
        confidence := best.1 }

/-- findPotentialDuplicates (services/RSSDeduplication.ts): for every other
stored source on the same domain, run checkForDuplicate on that source
itself and keep it when the confidence exceeds the threshold; the result is
sorted by confidence, highest first. -/
def findPotentialDuplicates (sources : List SourceRec) (sourceId : ℕ)
    (threshold : ℚ) : Except String (SourceRec × List (SourceRec × ℚ × String)) :=
  match sources.find? (fun s => s.id = sourceId) with
  | none => Except.error "Source not found"
  | some source =>
    let domain := extractDomain source.link
    let otherSources := sources.filter
      (fun s => s.id ≠ sourceId ∧ containsCI s.link domain)
    let duplicates := otherSources.filterMap fun otherSource =>
      let result := checkForDuplicate sources otherSource.link
        (otherSource.metadata.getD emptyMetadata)
      if result.confidence > threshold then
        some (otherSource, result.confidence,
          orDefault result.reason "Similarity analysis")
      else none
    Except.ok (source, duplicates.mergeSort (fun a b => decide (b.2.1 ≤ a.2.1)))

end RSSDeduplicationService

namespace NewsDeduplicationService

open OpenSearchService

/-- Stop-word list of calculateTitleSimilarity (services/deduplication.ts). -/
def commonWords : List String :=
  ["в", "на", "с", "по", "для", "из", "о", "от", "к", "и", "а", "но", "или",
   "что", "как", "за", "до", "при", "со", "во", "не", "же"]

/-- Quote class `[«»“”„]` of calculateTitleSimilarity, replaced by `"`. -/
def isTitleQuote (c : Char) : Bool :=
  c = '«' ∨ c = '»' ∨ c = '“' ∨ c = '”' ∨ c = '„'

/-- Dash class `[—–]` of calculateTitleSimilarity, replaced by `-`. -/
def isTitleDash (c : Char) : Bool :=
  c = '—' ∨ c = '–'

/-- Punctuation class `[.,!?;:]` of calculateTitleSimilarity, removed. -/
def isTitlePunct (c : Char) : Bool :=
  c = '.' ∨ c = ',' ∨ c = '!' ∨ c = '?' ∨ c = ';' ∨ c = ':'

/-- Normalization of calculateTitleSimilarity: lowercase, fold quotes to `"`,
fold dashes to `-`, delete punctuation, collapse whitespace, trim. -/
def titleNormalize (t : String) : String :=
  jsTrim (collapseSpaces
    ⟨(((jsToLower t).data.map
        (fun c => if isTitleQuote c then '"' else c)).map
        (fun c => if isTitleDash c then '-' else c)).filter
        (fun c => ¬ isTitlePunct c)⟩)

/-- calculateTitleSimilarity (services/deduplication.ts): Jaccard index of
the word sets after stop-word removal; 0 when either side has no meaningful
words. -/
def calculateTitleSimilarity (title1 title2 : String) : ℚ :=
  let words1 := ((splitSpace (titleNormalize title1)).filter
    (fun w => w.length > 2)).filter (fun w => ¬ (w ∈ commonWords))
  let words2 := ((splitSpace (titleNormalize title2)).filter
    (fun w => w.length > 2)).filter (fun w => ¬ (w ∈ commonWords))
  if words1 = [] ∨ words2 = [] then 0
  else
    let set1 := words1.dedup
    let set2 := words2.dedup
    let intersection := set1.filter (fun x => x ∈ set2)
    let union := (set1 ++ set2).dedup
    mkRat intersection.length union.length

/-- calculateSimpleSimilarity (services/deduplication.ts) - the private copy
of the OpenSearch service function, embedded separately because the sweep
calls this one. -/
def calculateSimpleSimilarity (title1 title2 : String) : ℚ :=
  if title1 = "" ∨ title2 = "" then 0
  else
    let normalize := fun (t : String) => collapseSpaces (keepWordSpace (jsTrim (jsToLower t)))
    let norm1 := normalize title1
    let norm2 := normalize title2
    if norm1 = norm2 then 1
    else
      let words1 := (splitSpace norm1).filter (fun w => w.length > 2)
      let words2 := (splitSpace norm2).filter (fun w => w.length > 2)
      if words1 = [] ∨ words2 = [] then 0
      else
        let set1 := words1.dedup
        let set2 := words2.dedup
        let intersection := set1.filter (fun x => x ∈ set2)
        let union := (set1 ++ set2).dedup
        mkRat intersection.length union.length

/-- generateContentHash (models/NewsRaw.ts): normalize and digest.  The
SHA-256 digest is the abstract `digest` parameter; `none` models the
randomized placeholder hash returned for short content, which by design
never collides with anything (see `hashEq`). -/
def generateContentHash (digest : String → String) (text : String) : Option String :=
  if (jsTrim text).data.length < 10 then none
  else
    let normalized := jsTrim (collapseSpaces (keepWordSpace (jsToLower text)))
    if normalized.data.length < 10 then none
    else some (digest normalized)

/-- Equality of stored hashes: a randomized placeholder (`none`) equals
nothing, not even another placeholder. -/
def hashEq : Option String → Option String → Bool
  | some a, some b => a = b
  | _, _ => false

/-- A normalized article as the sweep reads it.  `id` models the store id
and `createdAt` the creation timestamp. -/
structure Article where
  id : ℕ
  titleCanonical : String
  summaryShort : Option String
  createdAt : ℕ
  deriving DecidableEq, Repr

structure MarkedEntry where
  article : Article
  original : Article
  method : String
  similarity : ℚ
  deriving DecidableEq, Repr

/-- The sweep state: the processed-articles map (insertion order, keyed by
content hash) and the removal candidates found so far. -/
structure SweepState where
  seen : List (Option String × Article)
  marked : List MarkedEntry
  deriving DecidableEq, Repr

def contentHashOf (digest : String → String) (a : Article) : Option String :=
  generateContentHash digest
    (jsTrim (jsToLower (a.titleCanonical ++ " " ++ a.summaryShort.getD "")))

/-- Stage 1 of the sweep loop: title comparison against every already
accepted article, in insertion order, first match wins. -/
def titleMatch (seen : List (Option String × Article)) (currentNews : Article) :
    Option (Article × String × ℚ) :=
  seen.findSome? fun entry =>
    let existingArticle := entry.2
    let advancedSimilarity := calculateTitleSimilarity
      (jsTrim (jsToLower currentNews.titleCanonical))
      (jsTrim (jsToLower existingArticle.titleCanonical))
    let simpleSimilarity := calculateSimpleSimilarity
      (jsTrim (jsToLower currentNews.titleCanonical))
      (jsTrim (jsToLower existingArticle.titleCanonical))
    if advancedSimilarity > mkRat 17 20 ∨ simpleSimilarity > mkRat 9 10 then
      some (existingArticle,
        (if simpleSimilarity > mkRat 9 10 then "simple_title_match"
         else "advanced_title_match"),
        mathMax advancedSimilarity simpleSimilarity)
    else none

/-- Stage 2: exact content-hash comparison against every accepted article
(the hashes are recomputed on both sides, as in the source). -/
def hashMatch (digest : String → String) (seen : List (Option String × Article))
    (currentNews : Article) : Option Article :=
  let contentHash := contentHashOf digest currentNews
  seen.findSome? fun entry =>
    if hashEq contentHash (contentHashOf digest entry.2) then some entry.2 else none

/-- Stage 3: the semantic check.  `oracle` abstracts the live search-index
call `opensearchService.checkForDuplicates` on the document built from the
article.  The result is accepted only above score 0.9 (score falsy-guarded)
and only when the reported original matches an accepted article by exact
title string. -/
def semanticMatch (oracle : Article → DuplicationResult)
    (seen : List (Option String × Article)) (currentNews : Article) :
    Option (Article × String × ℚ) :=
  let duplicationResult := oracle currentNews
  let gate : Bool := duplicationResult.isDuplicate &&
    (match duplicationResult.similarity_score with
     | some s => decide (s ≠ 0) && decide (s > mkRat 9 10)
     | none => false)
  if gate then
    seen.findSome? fun entry =>
      match duplicationResult.original with
      | some orig =>
        if entry.2.titleCanonical = orig.title then
          some (entry.2, duplicationResult.method,
            duplicationResult.similarity_score.getD 0)
        else none
      | none => none
  else none

/-- One iteration of the sweep loop of findAndRemoveDuplicates
(services/deduplication.ts, lines 321-493): a matched article is recorded as
a removal candidate and never enters the seen map; an unmatched article is
appended to the seen map keyed by its content hash. -/
def sweepStep (digest : String → String) (oracle : Article → DuplicationResult)
    (st : SweepState) (currentNews : Article) : SweepState :=
  match titleMatch st.seen currentNews with
  | some (orig, m, s) =>
    { st with marked := st.marked ++ [⟨currentNews, orig, m, s⟩] }
  | none =>
    match hashMatch digest st.seen currentNews with
    | some orig =>
      { st with marked := st.marked ++ [⟨currentNews, orig, "exact_content_hash", 1⟩] }
    | none =>
      if st.seen = [] then
        { st with seen := st.seen ++ [(contentHashOf digest currentNews, currentNews)] }
      else
        match semanticMatch oracle st.seen currentNews with
        | some (orig, m, s) =>
          { st with marked := st.marked ++ [⟨currentNews, orig, m, s⟩] }
        | none =>
          { st with seen := st.seen ++ [(contentHashOf digest currentNews, currentNews)] }

/-- The detection pass of findAndRemoveDuplicates: sort the stored articles
oldest-created-first and fold the sweep step over them.  The removal phase
(executed when dryRun is false) deletes exactly the `marked` entries and is
not modelled further, since every claim concerns the detection result. -/
def findAndRemoveDuplicates (digest : String → String)
    (oracle : Article → DuplicationResult) (allNews : List Article) : SweepState :=
  (List.insertionSort (fun x y => x.createdAt ≤ y.createdAt) allNews).foldl
    (sweepStep digest oracle) ⟨[], []⟩

end NewsDeduplicationService

namespace OpenSearchService

/-- Li helper: a prefix on which the function returns nothing can be dropped
from a findSome? scan. -/
theorem findSome?_append_of_none {α β : Type} (f : α → Option β) :
    ∀ (pre rest : List α), (∀ o ∈ pre, f o = none) →
      (pre ++ rest).findSome? f = rest.findSome? f
  | [], _, _ => rfl
  | a :: pre, rest, h => by
    rw [List.cons_append, List.findSome?_cons, h a (List.mem_cons_self a pre)]
    exact findSome?_append_of_none f pre rest fun o ho => h o (List.mem_cons_of_mem a ho)

/-- The qualifying condition of the hash stage, written as the spec words it:
the candidate matched via title hash (the stored and computed title hashes are
equal), or simple title similarity above 0.90, or detailed title similarity
above 0.70, or combined detailed similarity above 0.50 together with detailed
title similarity above 0.50. -/
def specHashQualifies (news : NewsDocument) (titleHash : String)
    (orig : NewsDocument) : Prop :=
  orig.title_hash = some titleHash ∨
  calculateSimpleSimilarity (jsTrim (jsToLower orig.title))
    (jsTrim (jsToLower news.title)) > mkRat 9 10 ∨
  calculateDetailedSimilarity (jsTrim (jsToLower orig.title))
    (jsTrim (jsToLower news.title)) > mkRat 7 10 ∨
  (calculateDetailedSimilarity (jsTrim (jsToLower orig.title) ++ " " ++ orig.content)
     (jsTrim (jsToLower news.title) ++ " " ++ news.content) > mkRat 1 2 ∧
   calculateDetailedSimilarity (jsTrim (jsToLower orig.title))
     (jsTrim (jsToLower news.title)) > mkRat 1 2)

instance (news : NewsDocument) (titleHash : String) (orig : NewsDocument) :
    Decidable (specHashQualifies news titleHash orig) := by
  unfold specHashQualifies
  infer_instance

/-- The score the spec promises on a hash-stage duplicate: the maximum of the
simple, detailed and combined similarities. -/
def specHashScore (news : NewsDocument) (titleHash : String)
    (orig : NewsDocument) : ℚ :=
  mathMax
    (calculateSimpleSimilarity (jsTrim (jsToLower orig.title))
      (jsTrim (jsToLower news.title)))
    (mathMax
      (calculateDetailedSimilarity (jsTrim (jsToLower orig.title))
        (jsTrim (jsToLower news.title)))
      (calculateDetailedSimilarity (jsTrim (jsToLower orig.title) ++ " " ++ orig.content)
        (jsTrim (jsToLower news.title) ++ " " ++ news.content)))

theorem hashHitDecision_eq (news : NewsDocument) (titleHash : String)
    (orig : NewsDocument) :
    hashHitDecision news.title news.content titleHash orig =
      if specHashQualifies news titleHash orig then
        some { isDuplicate := true, original := some orig,
               similarity_score := some (specHashScore news titleHash orig),
               method := "hash", candidates := [] }
      else none := by
  unfold hashHitDecision specHashQualifies specHashScore
  dsimp only
  by_cases h : orig.title_hash = some titleHash
  · rw [if_pos h]
    refine if_congr ?_ rfl rfl
    constructor
    · rintro (⟨_, hh⟩ | hr)
      · exact Or.inl hh
      · exact Or.inr hr
    · rintro (hh | hr)
      · exact Or.inl ⟨rfl, hh⟩
      · exact Or.inr hr
  · rw [if_neg h]
    refine if_congr ?_ rfl rfl
    constructor
    · rintro (⟨hbad, _⟩ | hr)
      · exact absurd hbad (by decide)
      · exact Or.inr hr
    · rintro (hh | hr)
      · exact absurd hh h
      · exact Or.inr hr

end OpenSearchService

namespace OpenSearchService

theorem checkForDuplicates_nil_hash (news : NewsDocument) (titleHash : String)
    (semHits : List (NewsDocument × ℚ)) :
    checkForDuplicates news titleHash [] semHits =
      semanticStage news.title news.content semHits := by
  unfold checkForDuplicates
  dsimp only
  by_cases h : (jsTrim (news.title ++ " " ++ news.content)).length ≥ 20
  · rw [if_pos h]
    rfl
  · rw [if_neg h]

end OpenSearchService

open OpenSearchService

/-- C1: in the hash stage of checkForDuplicates, each of the first (at most
three) hash hits is declared a duplicate exactly under the spec disjunction
(title-hash equality, simple similarity above 0.90, detailed similarity
above 0.70, or combined above 0.50 with detailed above 0.50); the first
qualifying hit returns isDuplicate with method hash and score equal to the
maximum of the three similarities, and if no hit among the first three
qualifies the engine falls through to the semantic stage. -/
theorem C1_hash_stage_decision (news : NewsDocument) (titleHash : String)
    (hashHits : List NewsDocument) (semHits : List (NewsDocument × ℚ))
    (hEnough : (jsTrim (news.title ++ " " ++ news.content)).length ≥ 20) :
    ((∀ o ∈ hashHits.take 3, ¬ specHashQualifies news titleHash o) →
      checkForDuplicates news titleHash hashHits semHits =
        semanticStage news.title news.content semHits) ∧
    (∀ pre orig post, hashHits.take 3 = pre ++ orig :: post →
      (∀ o ∈ pre, ¬ specHashQualifies news titleHash o) →
      specHashQualifies news titleHash orig →
      checkForDuplicates news titleHash hashHits semHits =
        { isDuplicate := true, original := some orig,
          similarity_score := some (specHashScore news titleHash orig),
          method := "hash", candidates := [] }) := by
  have hcheck : checkForDuplicates news titleHash hashHits semHits =
      match (hashHits.take 3).findSome?
          (hashHitDecision news.title news.content titleHash) with
      | some result => result
      | none => semanticStage news.title news.content semHits := by
    unfold checkForDuplicates
    dsimp only
    rw [if_pos hEnough]
  constructor
  · intro hnone
    rw [hcheck]
    have hfs : (hashHits.take 3).findSome?
        (hashHitDecision news.title news.content titleHash) = none := by
      refine List.findSome?_eq_none_iff.mpr fun o ho => ?_
      rw [hashHitDecision_eq]
      exact if_neg (hnone o ho)
    rw [hfs]
  · intro pre orig post hsplit hpre hq
    rw [hcheck, hsplit]
    rw [findSome?_append_of_none _ pre (orig :: post) fun o ho => by
      rw [hashHitDecision_eq]; exact if_neg (hpre o ho)]
    rw [List.findSome?_cons]
    rw [hashHitDecision_eq, if_pos hq]

/-- Witness for C1: an incoming article whose title equals a stored hash
hit is rejected by the hash stage with score 1. -/
theorem C1_hash_stage_decision_witness :
    checkForDuplicates ⟨"breaking news about stuff", "plenty of content here", none⟩
        "th" [⟨"breaking news about stuff", "other text", none⟩] [] =
      { isDuplicate := true,
        original := some ⟨"breaking news about stuff", "other text", none⟩,
        similarity_score := some 1, method := "hash", candidates := [] } := by
  have h := (C1_hash_stage_decision
      ⟨"breaking news about stuff", "plenty of content here", none⟩ "th"
      [⟨"breaking news about stuff", "other text", none⟩] [] (by decide)).2
      [] ⟨"breaking news about stuff", "other text", none⟩ [] rfl
      (by simp) (by right; left; decide)
  rw [h]
  decide

/-- C2: in the semantic stage, a top more-like-this hit whose normalized
score (raw over 10) exceeds 1.5 is confirmed a duplicate with method
text_similarity and score equal to the normalized score exactly when the
detailed similarity of title plus content also exceeds 0.50; otherwise the
article is not classified a duplicate. -/
theorem C2_semantic_validation (news : NewsDocument) (titleHash : String)
    (top : NewsDocument × ℚ) (rest : List (NewsDocument × ℚ)) :
    (ratDiv top.2 10 > mkRat 3 2 →
      ¬ (calculateDetailedSimilarity (top.1.title ++ " " ++ top.1.content)
          (news.title ++ " " ++ news.content) > mkRat 1 2) →
      (checkForDuplicates news titleHash [] (top :: rest)).isDuplicate = false) ∧
    (((checkForDuplicates news titleHash [] (top :: rest)).isDuplicate = true ∧
      (checkForDuplicates news titleHash [] (top :: rest)).method = "text_similarity") ↔
      (ratDiv top.2 10 > mkRat 3 2 ∧
        calculateDetailedSimilarity (top.1.title ++ " " ++ top.1.content)
          (news.title ++ " " ++ news.content) > mkRat 1 2)) ∧
    (ratDiv top.2 10 > mkRat 3 2 →
      calculateDetailedSimilarity (top.1.title ++ " " ++ top.1.content)
        (news.title ++ " " ++ news.content) > mkRat 1 2 →
      checkForDuplicates news titleHash [] (top :: rest) =
        { isDuplicate := true, original := some top.1,
          similarity_score := some (ratDiv top.2 10),
          method := "text_similarity", candidates := rest.map Prod.fst }) := by
  rw [checkForDuplicates_nil_hash]
  unfold semanticStage
  dsimp only
  by_cases h1 : ratDiv top.2 10 > mkRat 3 2
  · by_cases h2 : calculateDetailedSimilarity (top.1.title ++ " " ++ top.1.content)
        (news.title ++ " " ++ news.content) > mkRat 1 2
    · rw [if_pos h1, if_pos h2]
      refine ⟨fun _ hc => absurd h2 hc, ?_, fun _ _ => rfl⟩
      constructor
      · intro _
        exact ⟨h1, h2⟩
      · intro _
        exact ⟨rfl, rfl⟩
    · rw [if_pos h1, if_neg h2]
      refine ⟨fun _ _ => rfl, ?_, fun _ hc => absurd hc h2⟩
      constructor
      · rintro ⟨hfalse, _⟩
        cases hfalse
      · rintro ⟨_, hc⟩
        exact absurd hc h2
  · rw [if_neg h1]
    refine ⟨fun hc _ => absurd hc h1, ?_, fun hc _ => absurd hc h1⟩
    constructor
    · rintro ⟨hfalse, _⟩
      cases hfalse
    · rintro ⟨hc, _⟩
      exact absurd hc h1

/-- Witness for C2: a top hit with raw score 18 (normalized 1.8) and fully
matching content is confirmed with the normalized score; the same theorem
also rejects when the content differs. -/
theorem C2_semantic_validation_witness :
    checkForDuplicates ⟨"alpha beta gamma words", "delta epsilon words", none⟩ "th" []
        [(⟨"alpha beta gamma words", "delta epsilon words", none⟩, 18)] =
      { isDuplicate := true,
        original := some ⟨"alpha beta gamma words", "delta epsilon words", none⟩,
        similarity_score := some (mkRat 9 5),
        method := "text_similarity", candidates := [] } := by
  have h := (C2_semantic_validation
      ⟨"alpha beta gamma words", "delta epsilon words", none⟩ "th"
      (⟨"alpha beta gamma words", "delta epsilon words", none⟩, 18) []).2.2
      (by decide) (by decide)
  rw [h]
  decide

namespace NewsDeduplicationService

theorem scoreGate_iff (dup : DuplicationResult) :
    scoreGate dup = true ↔ ∃ s, dup.similarity_score = some s ∧ s ≥ mkRat 3 2 := by
  have h32 : (0 : ℚ) < mkRat 3 2 := by
    rw [Rat.mkRat_eq_div]
    norm_num
  unfold scoreGate
  cases h : dup.similarity_score with
  | none => simp
  | some s =>
    simp only [Bool.and_eq_true, decide_eq_true_eq, Option.some.injEq]
    constructor
    · rintro ⟨-, hge⟩
      exact ⟨s, rfl, hge⟩
    · rintro ⟨t, ht, hge⟩
      cases ht
      refine ⟨?_, hge⟩
      intro h0
      rw [h0] at hge
      exact absurd (lt_of_lt_of_le h32 hge) (lt_irrefl 0)

end NewsDeduplicationService

open NewsDeduplicationService

/-- C3: processNews rejects an article exactly when the duplicate check
reports a duplicate with similarity score at least 1.5; a flagged duplicate
below that confidence is still persisted and indexed. -/
theorem C3_low_confidence_override (title : String) (env : Collaborators)
    (dup : DuplicationResult)
    (htitle : ¬ jsTrim title = "")
    (hdedup : env.dedup = Except.ok dup)
    (hstore : env.storeCreate = Except.ok ())
    (hindex : env.indexNews = Except.ok ()) :
    ((processNews title env).1.saved = false ↔
      (dup.isDuplicate = true ∧ ∃ s, dup.similarity_score = some s ∧ s ≥ mkRat 3 2)) ∧
    ((processNews title env).1.saved = false →
      (processNews title env).1.original = dup.original) ∧
    ((processNews title env).1.saved = true →
      (processNews title env).2.storeCreates = 1 ∧
        (processNews title env).2.indexCalls = 1) := by
  unfold processNews mainPhase
  rw [if_neg htitle, hdedup]
  dsimp only
  by_cases hgate : (dup.isDuplicate && scoreGate dup) = true
  · rw [if_pos hgate]
    simp only [Bool.and_eq_true] at hgate
    dsimp only
    constructor
    · constructor
      · intro _
        exact ⟨hgate.1, (scoreGate_iff dup).mp hgate.2⟩
      · intro _
        rfl
    · constructor
      · intro _
        rfl
      · intro hsaved
        exact absurd hsaved (by decide)
  · rw [if_neg hgate]
    rw [hstore, hindex]
    dsimp only
    constructor
    · constructor
      · intro hsaved
        exact absurd hsaved (by decide)
      · rintro ⟨hdup, hsc⟩
        exact absurd (by rw [hdup, (scoreGate_iff dup).mpr hsc]; rfl) hgate
    · constructor
      · intro hsaved
        exact absurd hsaved (by decide)
      · intro _
        exact ⟨rfl, rfl⟩

/-- Witness for C3: a duplicate with score 1.6 is rejected and carries the
original reference. -/
theorem C3_low_confidence_override_witness :
    (processNews "hello there"
      ⟨Except.ok ⟨true, some ⟨"orig title", "orig content", none⟩, some (mkRat 8 5), "hash", []⟩,
       Except.ok (), Except.ok (), Except.ok ()⟩).1.saved = false := by
  exact (C3_low_confidence_override "hello there"
      ⟨Except.ok ⟨true, some ⟨"orig title", "orig content", none⟩, some (mkRat 8 5), "hash", []⟩,
       Except.ok (), Except.ok (), Except.ok ()⟩
      ⟨true, some ⟨"orig title", "orig content", none⟩, some (mkRat 8 5), "hash", []⟩
      (by decide) rfl rfl rfl).1.mpr
    ⟨rfl, mkRat 8 5, rfl, by decide⟩

/-- C4 counterexample: a whitespace-only title skips deduplication but the
catch-all fallback still persists the article (one store write, saved true),
so processNews does not refuse to persist such an article as the claim
states. -/
theorem C4_counterexample :
    (processNews "   "
      ⟨Except.ok ⟨false, none, none, "none", []⟩,
       Except.ok (), Except.ok (), Except.ok ()⟩).2.storeCreates = 1 ∧
    ¬ (processNews "   "
      ⟨Except.ok ⟨false, none, none, "none", []⟩,
       Except.ok (), Except.ok (), Except.ok ()⟩).2.storeCreates = 0 ∧
    (processNews "   "
      ⟨Except.ok ⟨false, none, none, "none", []⟩,
       Except.ok (), Except.ok (), Except.ok ()⟩).1.saved = true := by
  decide

/-- C4 as amended: an empty or whitespace-only title skips deduplication
(no duplicate check runs), but the article is still saved by the fallback
path when the fallback store write succeeds, and only a failing fallback
write makes the call report failure. -/
theorem C4_empty_title_fallback (title : String) (env : Collaborators)
    (h : jsTrim title = "") :
    (processNews title env).2.dedupCalls = 0 ∧
    (env.fallbackCreate = Except.ok () →
      processNews title env =
        ({ saved := true, reason := "Saved to MongoDB (OpenSearch failed)",
           original := none }, ⟨0, 1, 0⟩)) ∧
    (∀ e, env.fallbackCreate = Except.error e →
      processNews title env =
        ({ saved := false, reason := "Save failed: " ++ e,
           original := none }, ⟨0, 0, 0⟩)) := by
  unfold processNews mainPhase
  rw [if_pos h]
  dsimp only
  refine ⟨?_, ?_, ?_⟩
  · cases hf : env.fallbackCreate <;> rfl
  · intro hf
    rw [hf]
  · intro e hf
    rw [hf]

/-- Witness for C4 as amended. -/
theorem C4_empty_title_fallback_witness :
    processNews " "
      ⟨Except.ok ⟨false, none, none, "none", []⟩,
       Except.ok (), Except.ok (), Except.ok ()⟩ =
      ({ saved := true, reason := "Saved to MongoDB (OpenSearch failed)",
         original := none }, ⟨0, 1, 0⟩) :=
  (C4_empty_title_fallback " "
    ⟨Except.ok ⟨false, none, none, "none", []⟩,
     Except.ok (), Except.ok (), Except.ok ()⟩ (by decide)).2.1 rfl

/-- C5: when the duplicate check itself throws, the article is not dropped;
it is saved to the document store only, with no indexing attempt, and the
call reports the fallback reason; if the fallback write also fails, the
call reports failure with the underlying error message. -/
theorem C5_dedup_failure_fallback (title : String) (env : Collaborators)
    (msg : String)
    (htitle : ¬ jsTrim title = "")
    (hdedup : env.dedup = Except.error msg) :
    (env.fallbackCreate = Except.ok () →
      processNews title env =
        ({ saved := true, reason := "Saved to MongoDB (OpenSearch failed)",
           original := none }, ⟨1, 1, 0⟩)) ∧
    (∀ e, env.fallbackCreate = Except.error e →
      processNews title env =
        ({ saved := false, reason := "Save failed: " ++ e,
           original := none }, ⟨1, 0, 0⟩)) := by
  unfold processNews mainPhase
  rw [if_neg htitle, hdedup]
  dsimp only
  refine ⟨fun hf => by rw [hf], fun e hf => by rw [hf]⟩

/-- Witness for C5. -/
theorem C5_dedup_failure_fallback_witness :
    processNews "a title"
      ⟨Except.error "gateway unreachable",
       Except.ok (), Except.ok (), Except.ok ()⟩ =
      ({ saved := true, reason := "Saved to MongoDB (OpenSearch failed)",
         original := none }, ⟨1, 1, 0⟩) :=
  (C5_dedup_failure_fallback "a title"
    ⟨Except.error "gateway unreachable", Except.ok (), Except.ok (), Except.ok ()⟩
    "gateway unreachable" (by decide) rfl).1 rfl

/-- C6 counterexample: when the store save succeeds and the index step
throws, the catch-all fallback performs a second store write, so the call
creates two document-store records, not one. -/
theorem C6_counterexample :
    (processNews "some news title"
      ⟨Except.ok ⟨false, none, none, "none", []⟩,
       Except.ok (), Except.error "index down", Except.ok ()⟩).2.storeCreates = 2 ∧
    ¬ (processNews "some news title"
      ⟨Except.ok ⟨false, none, none, "none", []⟩,
       Except.ok (), Except.error "index down", Except.ok ()⟩).2.storeCreates = 1 := by
  decide

/-- C6 as amended: when the store save succeeds and the index step throws,
the first record remains persisted and the call still reports success, but
the catch-all fallback writes a second record (two store creates) when its
write succeeds; if the fallback write fails, one record remains and the
call reports failure. -/
theorem C6_index_failure_double_save (title : String) (env : Collaborators)
    (dup : DuplicationResult) (e : String)
    (htitle : ¬ jsTrim title = "")
    (hdedup : env.dedup = Except.ok dup)
    (hgate : (dup.isDuplicate && scoreGate dup) = false)
    (hstore : env.storeCreate = Except.ok ())
    (hindex : env.indexNews = Except.error e) :
    (env.fallbackCreate = Except.ok () →
      processNews title env =
        ({ saved := true, reason := "Saved to MongoDB (OpenSearch failed)",
           original := none }, ⟨1, 2, 1⟩)) ∧
    (∀ f, env.fallbackCreate = Except.error f →
      processNews title env =
        ({ saved := false, reason := "Save failed: " ++ f,
           original := none }, ⟨1, 1, 1⟩)) := by
  unfold processNews mainPhase
  rw [if_neg htitle, hdedup]
  dsimp only
  rw [if_neg (by rw [hgate]; exact Bool.false_ne_true), hstore, hindex]
  dsimp only
  refine ⟨fun hf => by rw [hf], fun f hf => by rw [hf]⟩

/-- Witness for C6 as amended. -/
theorem C6_index_failure_double_save_witness :
    processNews "some news title"
      ⟨Except.ok ⟨false, none, none, "none", []⟩,
       Except.ok (), Except.error "index down", Except.ok ()⟩ =
      ({ saved := true, reason := "Saved to MongoDB (OpenSearch failed)",
         original := none }, ⟨1, 2, 1⟩) :=
  (C6_index_failure_double_save "some news title"
    ⟨Except.ok ⟨false, none, none, "none", []⟩,
     Except.ok (), Except.error "index down", Except.ok ()⟩
    ⟨false, none, none, "none", []⟩ "index down"
    (by decide) rfl (by decide) rfl rfl).1 rfl

open RSSDeduplicationService

/-- C7 counterexample: on two empty strings the edit-distance similarity
returns 0 (the falsy-input guard fires before the equality check), not 1 as
the claim states. -/
theorem C7_counterexample :
    calculateStringSimilarity "" "" = 0 ∧ ¬ calculateStringSimilarity "" "" = 1 := by
  decide

/-- C7 as amended: editSim of an empty and a nonempty string is 0, editSim
of two equal nonempty strings is 1, editSim of two empty strings is 0 (not
1: the falsy guard precedes the equality check), and for nonempty inputs
the result is (maxLen - levenshtein) / maxLen over the lowercased trimmed
strings, with the convention that maxLen 0 yields 1. -/
theorem C7_edit_distance_similarity :
    calculateStringSimilarity "" "a" = 0 ∧
    calculateStringSimilarity "abc" "abc" = 1 ∧
    calculateStringSimilarity "" "" = 0 ∧
    (∀ s1 s2 : String, ¬ s1 = "" → ¬ s2 = "" →
      calculateStringSimilarity s1 s2 =
        (if (max (jsTrim (jsToLower s1)).data.length (jsTrim (jsToLower s2)).data.length : ℕ) = 0
         then 1
         else Rat.divInt
           (((max (jsTrim (jsToLower s1)).data.length (jsTrim (jsToLower s2)).data.length : ℕ) : ℤ) -
             (lev (jsTrim (jsToLower s1)).data (jsTrim (jsToLower s2)).data : ℕ))
           ((max (jsTrim (jsToLower s1)).data.length (jsTrim (jsToLower s2)).data.length : ℕ) : ℤ))) := by
  refine ⟨by decide, by decide, by decide, ?_⟩
  intro s1 s2 h1 h2
  unfold calculateStringSimilarity
  rw [if_neg (by simp [h1, h2])]
  dsimp only
  by_cases heq : jsTrim (jsToLower s1) = jsTrim (jsToLower s2)
  · rw [if_pos heq, heq, max_self]
    by_cases hz : (jsTrim (jsToLower s2)).data.length = 0
    · rw [if_pos hz]
    · rw [if_neg hz, lev_self]
      rw [show (((jsTrim (jsToLower s2)).data.length : ℤ) - ((0 : ℕ) : ℤ)) =
          (((jsTrim (jsToLower s2)).data.length : ℕ) : ℤ) by simp]
      exact (Rat.divInt_self' (by exact_mod_cast hz)).symm
  · rw [if_neg heq]
    by_cases hn : (jsTrim (jsToLower s1)).data.length = 0
    · have he1 : (jsTrim (jsToLower s1)).data = [] := List.length_eq_zero.mp hn
      rw [if_pos hn]
      by_cases hm : (jsTrim (jsToLower s2)).data.length = 0
      · have he2 : (jsTrim (jsToLower s2)).data = [] := List.length_eq_zero.mp hm
        exact absurd (congrArg String.mk (he1.trans he2.symm)) heq
      · have hmax : (max (jsTrim (jsToLower s1)).data.length
            (jsTrim (jsToLower s2)).data.length : ℕ) =
            (jsTrim (jsToLower s2)).data.length := by
          rw [hn]
          exact Nat.zero_max _
        have hlev : lev (jsTrim (jsToLower s1)).data (jsTrim (jsToLower s2)).data =
            (jsTrim (jsToLower s2)).data.length := by
          rw [he1, lev_nil]
        rw [if_neg hm, hmax, hlev, if_neg hm, sub_self, Rat.zero_divInt]
    · rw [if_neg hn]
      by_cases hm : (jsTrim (jsToLower s2)).data.length = 0
      · have he2 : (jsTrim (jsToLower s2)).data = [] := List.length_eq_zero.mp hm
        have hmax : (max (jsTrim (jsToLower s1)).data.length
            (jsTrim (jsToLower s2)).data.length : ℕ) =
            (jsTrim (jsToLower s1)).data.length := by
          rw [hm]
          exact Nat.max_zero _
        have hlev : lev (jsTrim (jsToLower s1)).data (jsTrim (jsToLower s2)).data =
            (jsTrim (jsToLower s1)).data.length := by
          rw [he2, lev_nil']
        rw [if_pos hm, hmax, hlev, if_neg hn, sub_self, Rat.zero_divInt]
      · have hmaxne : ¬ (max (jsTrim (jsToLower s1)).data.length
            (jsTrim (jsToLower s2)).data.length : ℕ) = 0 :=
          fun hmax0 => hn (Nat.max_eq_zero_iff.mp hmax0).1
        rw [if_neg hm, levDistance_eq_lev, if_neg hmaxne]

/-- Witness for C7 as amended: two-letter swapped strings have distance 2
and similarity 0. -/
theorem C7_edit_distance_similarity_witness :
    calculateStringSimilarity "ab" "ba" = 0 := by
  have h := C7_edit_distance_similarity.2.2.2 "ab" "ba" (by decide) (by decide)
  rw [h, ← levDistance_eq_lev]
  decide

/-- C8 counterexample: URL normalization preserves the scheme, so the
normalized form of the https candidate does not equal the stored http link,
the exact-match lookup misses, and the check reports no duplicate with
confidence 22/115 (from the fuzzy URL-similarity signal), not a duplicate
with confidence 1.0. -/
theorem C8_counterexample :
    normalizeUrl "https://www.example.com/rss/" = "https://example.com/rss" ∧
    ¬ normalizeUrl "https://www.example.com/rss/" = "http://example.com/rss" ∧
    (checkForDuplicate [⟨0, "http://example.com/rss", none⟩]
        "https://www.example.com/rss/" emptyMetadata).isDuplicate = false ∧
    (checkForDuplicate [⟨0, "http://example.com/rss", none⟩]
        "https://www.example.com/rss/" emptyMetadata).confidence = mkRat 22 115 ∧
    ¬ (checkForDuplicate [⟨0, "http://example.com/rss", none⟩]
        "https://www.example.com/rss/" emptyMetadata).confidence = 1 := by
  exact ⟨rfl, by decide, rfl, by decide, by decide⟩

/-- C8 as amended: the exact-match detection with confidence 1.0 via
normalized-URL equality fires only when the stored link shares the scheme:
registering the https candidate against a stored link
https://example.com/rss is detected as a duplicate with confidence 1.0 and
reason Exact URL match, because normalization maps both URLs to the same
string; against the stored http link the exact lookup misses (see the
counterexample). -/
theorem C8_source_exact_duplicate :
    checkForDuplicate [⟨0, "https://example.com/rss", none⟩]
        "https://www.example.com/rss/" emptyMetadata =
      { isDuplicate := true,
        existingSource := some ⟨0, "https://example.com/rss", none⟩,
        reason := some "Exact URL match", confidence := 1 } ∧
    normalizeUrl "https://www.example.com/rss/" =
      normalizeUrl "https://example.com/rss" := by
  exact ⟨by decide, rfl⟩

/-- C10: for any stored source S on the same domain as the looked-up source
X (and distinct from it), the reverse lookup reports S with confidence 1.0
and reason Exact URL match whenever the threshold is below 1, regardless of
metadata similarities: checkForDuplicate runs on the link of S itself, and
the exact-URL lookup over all stored sources matches that link. -/
theorem C10_reverse_lookup_self_match (sources : List SourceRec) (x s : SourceRec)
    (threshold : ℚ)
    (hfind : sources.find? (fun t => t.id = x.id) = some x)
    (hs : s ∈ sources)
    (hid : ¬ s.id = x.id)
    (hdom : containsCI s.link (extractDomain x.link) = true)
    (hth : threshold < 1) :
    ∃ res, findPotentialDuplicates sources x.id threshold = Except.ok res ∧
      (s, (1 : ℚ), "Exact URL match") ∈ res.2 := by
  obtain ⟨t, ht⟩ : ∃ t, sources.find?
      (fun u => u.link = s.link ∨ u.link = normalizeUrl s.link) = some t := by
    refine Option.isSome_iff_exists.mp ?_
    rw [List.find?_isSome]
    exact ⟨s, hs, by simp⟩
  have hcd : checkForDuplicate sources s.link (s.metadata.getD emptyMetadata) =
      { isDuplicate := true, existingSource := some t,
        reason := some "Exact URL match", confidence := 1 } := by
    unfold checkForDuplicate
    dsimp only
    rw [ht]
  unfold findPotentialDuplicates
  rw [hfind]
  dsimp only
  refine ⟨_, rfl, ?_⟩
  rw [(List.mergeSort_perm _ _).mem_iff, List.mem_filterMap]
  refine ⟨s, ?_, ?_⟩
  · rw [List.mem_filter]
    refine ⟨hs, ?_⟩
    simp [hid, hdom]
  · rw [hcd]
    rw [if_pos hth]
    simp [orDefault]

/-- Witness for C10: in a store with two sources on the same domain, the
reverse lookup on the first reports the second with confidence 1. -/
theorem C10_reverse_lookup_self_match_witness :
    ∃ res, findPotentialDuplicates
        [⟨0, "http://example.com/rss", none⟩, ⟨1, "http://example.com/atom", none⟩]
        0 (mkRat 7 10) = Except.ok res ∧
      (⟨1, "http://example.com/atom", none⟩, (1 : ℚ), "Exact URL match") ∈ res.2 := by
  exact C10_reverse_lookup_self_match
    [⟨0, "http://example.com/rss", none⟩, ⟨1, "http://example.com/atom", none⟩]
    ⟨0, "http://example.com/rss", none⟩ ⟨1, "http://example.com/atom", none⟩
    (mkRat 7 10) rfl (by simp) (by decide) (by decide) (by decide)

namespace NewsDeduplicationService

/-- A title-stage match always reports an already accepted article. -/
theorem titleMatch_mem_seen (seen : List (Option String × Article)) (a orig : Article)
    (m : String) (s : ℚ) (h : titleMatch seen a = some (orig, m, s)) :
    orig ∈ seen.map Prod.snd := by
  unfold titleMatch at h
  obtain ⟨entry, hentry, hf⟩ := List.exists_of_findSome?_eq_some h
  dsimp only at hf
  split at hf
  · have h1 := congrArg Prod.fst (Option.some.inj hf)
    dsimp at h1
    rw [← h1]
    exact List.mem_map_of_mem Prod.snd hentry
  · exact Option.noConfusion hf

/-- A hash-stage match always reports an already accepted article. -/
theorem hashMatch_mem_seen (digest : String → String)
    (seen : List (Option String × Article)) (a orig : Article)
    (h : hashMatch digest seen a = some orig) : orig ∈ seen.map Prod.snd := by
  unfold hashMatch at h
  dsimp only at h
  obtain ⟨entry, hentry, hf⟩ := List.exists_of_findSome?_eq_some h
  split at hf
  · rw [← Option.some.inj hf]
    exact List.mem_map_of_mem Prod.snd hentry
  · exact Option.noConfusion hf

/-- A semantic-stage match always reports an already accepted article. -/
theorem semanticMatch_mem_seen (oracle : Article → DuplicationResult)
    (seen : List (Option String × Article)) (a orig : Article) (m : String) (s : ℚ)
    (h : semanticMatch oracle seen a = some (orig, m, s)) :
    orig ∈ seen.map Prod.snd := by
  unfold semanticMatch at h
  dsimp only at h
  split at h
  · obtain ⟨entry, hentry, hf⟩ := List.exists_of_findSome?_eq_some h
    split at hf
    · split at hf
      · have h1 := congrArg Prod.fst (Option.some.inj hf)
        dsimp at h1
        rw [← h1]
        exact List.mem_map_of_mem Prod.snd hentry
      · exact Option.noConfusion hf
    · exact Option.noConfusion hf
  · exact Option.noConfusion h

/-- One sweep step either accepts the article (appending it to the seen map
with its content hash) or marks it against an article already accepted. -/
theorem sweepStep_shape (digest : String → String) (oracle : Article → DuplicationResult)
    (st : SweepState) (a : Article) :
    sweepStep digest oracle st a =
        ⟨st.seen ++ [(contentHashOf digest a, a)], st.marked⟩ ∨
      ∃ e : MarkedEntry, e.article = a ∧ e.original ∈ st.seen.map Prod.snd ∧
        sweepStep digest oracle st a = ⟨st.seen, st.marked ++ [e]⟩ := by
  unfold sweepStep
  cases h1 : titleMatch st.seen a with
  | some r =>
    obtain ⟨orig, m, s⟩ := r
    exact Or.inr ⟨⟨a, orig, m, s⟩, rfl, titleMatch_mem_seen _ _ _ _ _ h1, rfl⟩
  | none =>
    cases h2 : hashMatch digest st.seen a with
    | some orig =>
      exact Or.inr ⟨⟨a, orig, "exact_content_hash", 1⟩, rfl,
        hashMatch_mem_seen _ _ _ _ h2, rfl⟩
    | none =>
      by_cases h0 : st.seen = []
      · rw [if_pos h0]
        exact Or.inl rfl
      · rw [if_neg h0]
        cases h3 : semanticMatch oracle st.seen a with
        | some r =>
          obtain ⟨orig, m, s⟩ := r
          exact Or.inr ⟨⟨a, orig, m, s⟩, rfl, semanticMatch_mem_seen _ _ _ _ _ _ h3, rfl⟩
        | none => exact Or.inl rfl

/-- When all three stages miss, the step accepts the article. -/
theorem sweepStep_eq_of_none (digest : String → String)
    (oracle : Article → DuplicationResult) (st : SweepState) (a : Article)
    (ht : titleMatch st.seen a = none) (hh : hashMatch digest st.seen a = none)
    (hs : semanticMatch oracle st.seen a = none) :
    sweepStep digest oracle st a =
      ⟨st.seen ++ [(contentHashOf digest a, a)], st.marked⟩ := by
  unfold sweepStep
  rw [ht]
  dsimp only
  rw [hh]
  dsimp only
  by_cases h0 : st.seen = []
  · rw [if_pos h0]
  · rw [if_neg h0, hs]

end NewsDeduplicationService

namespace NewsDeduplicationService

/-- The sweep partitions its input: every processed article ends up exactly
once, either in the seen map or among the removal candidates. -/
theorem sweep_partition (digest : String → String)
    (oracle : Article → DuplicationResult) :
    ∀ (l : List Article) (st : SweepState),
      ((l.foldl (sweepStep digest oracle) st).seen.map Prod.snd ++
        (l.foldl (sweepStep digest oracle) st).marked.map MarkedEntry.article).Perm
        ((st.seen.map Prod.snd ++ st.marked.map MarkedEntry.article) ++ l)
  | [], st => by simp
  | a :: l, st => by
    rw [List.foldl_cons]
    rcases sweepStep_shape digest oracle st a with h | ⟨e, hea, -, h⟩
    · rw [h]
      refine (sweep_partition digest oracle l _).trans ?_
      dsimp only
      simp only [List.map_append, List.map_cons, List.map_nil, List.append_assoc,
        List.singleton_append]
      refine List.Perm.append_left _ ?_
      exact List.perm_middle.symm
    · rw [h]
      refine (sweep_partition digest oracle l _).trans ?_
      dsimp only
      simp only [List.map_append, List.map_cons, List.map_nil, List.append_assoc,
        List.singleton_append, hea]
      exact List.Perm.refl _

/-- Along a creation-time-sorted input, every removal candidate points at an
accepted article that was created no later than it. -/
theorem sweep_originals (digest : String → String)
    (oracle : Article → DuplicationResult) :
    ∀ (l : List Article) (st : SweepState),
      (∀ e ∈ st.marked, e.original ∈ st.seen.map Prod.snd ∧
        e.original.createdAt ≤ e.article.createdAt) →
      (∀ x ∈ st.seen.map Prod.snd, ∀ b ∈ l, x.createdAt ≤ b.createdAt) →
      l.Pairwise (fun x y => x.createdAt ≤ y.createdAt) →
      ∀ e ∈ (l.foldl (sweepStep digest oracle) st).marked,
        e.original ∈ (l.foldl (sweepStep digest oracle) st).seen.map Prod.snd ∧
        e.original.createdAt ≤ e.article.createdAt
  | [], _, hm, _, _ => hm
  | a :: l, st, hm, hs, hp => by
    rw [List.foldl_cons]
    have hhead := (List.pairwise_cons.mp hp).1
    have htail := (List.pairwise_cons.mp hp).2
    rcases sweepStep_shape digest oracle st a with h | ⟨e, hea, heo, h⟩
    · rw [h]
      refine sweep_originals digest oracle l _ ?_ ?_ htail
      · intro e he
        dsimp only at he ⊢
        refine ⟨?_, (hm e he).2⟩
        rw [List.map_append]
        exact List.mem_append_left _ (hm e he).1
      · intro x hx b hb
        dsimp only at hx
        rw [List.map_append] at hx
        rcases List.mem_append.mp hx with hx | hx
        · exact hs x hx b (List.mem_cons_of_mem a hb)
        · simp only [List.map_cons, List.map_nil, List.mem_singleton] at hx
          rw [hx]
          exact hhead b hb
    · rw [h]
      refine sweep_originals digest oracle l _ ?_ ?_ htail
      · intro e' he'
        dsimp only at he' ⊢
        rcases List.mem_append.mp he' with he' | he'
        · exact hm e' he'
        · rw [List.mem_singleton] at he'
          rw [he']
          refine ⟨heo, ?_⟩
          rw [hea]
          exact hs e.original heo a (List.mem_cons_self a l)
      · intro x hx b hb
        dsimp only at hx
        exact hs x hx b (List.mem_cons_of_mem a hb)

/-- The creation-time sort used by the sweep is sorted by creation time. -/
theorem insertionSort_createdAt_pairwise (input : List Article) :
    (List.insertionSort (fun x y : Article => x.createdAt ≤ y.createdAt) input).Pairwise
      (fun x y : Article => x.createdAt ≤ y.createdAt) := by
  haveI : IsTotal Article (fun x y : Article => x.createdAt ≤ y.createdAt) :=
    ⟨fun a b => Nat.le_total a.createdAt b.createdAt⟩
  haveI : IsTrans Article (fun x y : Article => x.createdAt ≤ y.createdAt) :=
    ⟨fun _ _ _ hab hbc => Nat.le_trans hab hbc⟩
  exact List.sorted_insertionSort _ input

end NewsDeduplicationService

namespace NewsDeduplicationService

/-- Scenario article created first: ten-word title. -/
def sweepA1 : Article :=
  ⟨1, "alpha beta gamma delta epsil zeta etaon theta iotas kappa", none, 1⟩

/-- Scenario article created second: nine of the ten words of sweepA1, so its
detailed (Jaccard) title similarity to sweepA1 is exactly 0.9. -/
def sweepA2 : Article :=
  ⟨2, "alpha beta gamma delta epsil zeta etaon theta iotas", none, 2⟩

/-- Scenario article created third, unrelated to both. -/
def sweepA3 : Article :=
  ⟨3, "totally unrelated news item words", none, 3⟩

/-- On an empty state the sweep accepts the first article. -/
theorem sweepStep_accept_first (digest : String → String)
    (oracle : Article → DuplicationResult) :
    sweepStep digest oracle ⟨[], []⟩ sweepA1 =
      ⟨[(contentHashOf digest sweepA1, sweepA1)], []⟩ := rfl

/-- The title stage matches sweepA2 against an accepted sweepA1: advanced
similarity exactly 0.9 (above 0.85), simple similarity 0.9 (not above 0.9). -/
theorem titleMatch_sweepA2 (k : Option String) :
    titleMatch [(k, sweepA1)] sweepA2 =
      some (sweepA1, "advanced_title_match", mkRat 9 10) := by
  have hadv : calculateTitleSimilarity (jsTrim (jsToLower sweepA2.titleCanonical))
      (jsTrim (jsToLower sweepA1.titleCanonical)) = mkRat 9 10 := by decide
  have hsim : calculateSimpleSimilarity (jsTrim (jsToLower sweepA2.titleCanonical))
      (jsTrim (jsToLower sweepA1.titleCanonical)) = mkRat 9 10 := by decide
  unfold titleMatch
  rw [List.findSome?_cons]
  dsimp only
  rw [hadv, hsim]
  rw [if_pos (show mkRat 9 10 > mkRat 17 20 ∨ mkRat 9 10 > mkRat 9 10 by decide)]
  decide

/-- The similar article is marked against sweepA1 with similarity 0.9 by the
advanced title stage, whatever hash key sweepA1 was stored under. -/
theorem sweepStep_mark_second (digest : String → String)
    (oracle : Article → DuplicationResult) (k : Option String) :
    sweepStep digest oracle ⟨[(k, sweepA1)], []⟩ sweepA2 =
      ⟨[(k, sweepA1)], [⟨sweepA2, sweepA1, "advanced_title_match", mkRat 9 10⟩]⟩ := by
  unfold sweepStep
  dsimp only
  rw [titleMatch_sweepA2 k]
  rfl

end NewsDeduplicationService

namespace NewsDeduplicationService

/-- The unrelated article passes the title stage: both similarities are 0. -/
theorem titleMatch_sweepA3 (k : Option String) :
    titleMatch [(k, sweepA1)] sweepA3 = none := by
  have hadv : calculateTitleSimilarity (jsTrim (jsToLower sweepA3.titleCanonical))
      (jsTrim (jsToLower sweepA1.titleCanonical)) = 0 := by decide
  have hsim : calculateSimpleSimilarity (jsTrim (jsToLower sweepA3.titleCanonical))
      (jsTrim (jsToLower sweepA1.titleCanonical)) = 0 := by decide
  unfold titleMatch
  rw [List.findSome?_cons]
  dsimp only
  rw [hadv, hsim]
  rw [if_neg (show ¬((0 : ℚ) > mkRat 17 20 ∨ (0 : ℚ) > mkRat 9 10) by decide)]
  rfl

/-- Scenario D of the sweep: an input holding sweepA1, sweepA2, sweepA3 in any
order ends with sweepA1 and sweepA3 accepted (in creation order) and sweepA2
marked against sweepA1, provided the content hashes of the unrelated pair
differ and the semantic oracle reports no duplicate for sweepA3. -/
theorem sweep_scenarioD (input : List Article) (digest : String → String)
    (oracle : Article → DuplicationResult)
    (hperm : input.Perm [sweepA1, sweepA2, sweepA3])
    (hdig : hashEq (contentHashOf digest sweepA3) (contentHashOf digest sweepA1) = false)
    (hor : oracle sweepA3 = ⟨false, none, none, "none", []⟩) :
    findAndRemoveDuplicates digest oracle input =
      ⟨[(contentHashOf digest sweepA1, sweepA1), (contentHashOf digest sweepA3, sweepA3)],
        [⟨sweepA2, sweepA1, "advanced_title_match", mkRat 9 10⟩]⟩ := by
  have h3 : input.length = 3 := hperm.length_eq
  have hnd : input.Nodup := hperm.symm.nodup (by decide)
  have hsort : List.insertionSort (fun x y : Article => x.createdAt ≤ y.createdAt) input
      = [sweepA1, sweepA2, sweepA3] := by
    rcases input with _ | ⟨x, input⟩
    · simp at h3
    rcases input with _ | ⟨y, input⟩
    · simp at h3
    rcases input with _ | ⟨z, input⟩
    · simp at h3
    rcases input with _ | ⟨w, input⟩
    case cons.cons.cons.cons =>
      simp only [List.length_cons] at h3
      omega
    have hx : x ∈ [sweepA1, sweepA2, sweepA3] := hperm.mem_iff.mp (by simp)
    have hy : y ∈ [sweepA1, sweepA2, sweepA3] := hperm.mem_iff.mp (by simp)
    have hz : z ∈ [sweepA1, sweepA2, sweepA3] := hperm.mem_iff.mp (by simp)
    simp only [List.mem_cons, List.not_mem_nil, or_false] at hx hy hz
    rcases hx with rfl | rfl | rfl <;> rcases hy with rfl | rfl | rfl <;>
      rcases hz with rfl | rfl | rfl <;>
      first
        | decide
        | exact absurd hnd (by decide)
  unfold findAndRemoveDuplicates
  rw [hsort]
  rw [List.foldl_cons, List.foldl_cons, List.foldl_cons, List.foldl_nil]
  rw [sweepStep_accept_first digest oracle]
  rw [sweepStep_mark_second digest oracle (contentHashOf digest sweepA1)]
  refine sweepStep_eq_of_none digest oracle _ sweepA3 (titleMatch_sweepA3 _) ?_ ?_
  · unfold hashMatch
    dsimp only
    rw [List.findSome?_cons]
    dsimp only
    rw [hdig]
    rfl
  · unfold semanticMatch
    rw [hor]
    rfl

end NewsDeduplicationService

/-- C9: the duplicate sweep sorts by creation time and keeps originals: every
input article ends up exactly once, in the seen map or among the removal
candidates; every removal candidate points at a seen-map article created no
later than it (so the earlier-created of a duplicate pair is kept and never
marked); and in the three-article scenario — sweepA2's title 0.9-similar to
the earlier sweepA1, sweepA3 unrelated — any input order yields exactly
sweepA1 and sweepA3 accepted and sweepA2 marked against sweepA1. -/
theorem C9_sweep_ordering :
    (∀ (digest : String → String) (oracle : Article → DuplicationResult)
        (input : List Article),
      ((findAndRemoveDuplicates digest oracle input).seen.map Prod.snd ++
        (findAndRemoveDuplicates digest oracle input).marked.map
          MarkedEntry.article).Perm input ∧
      ∀ e ∈ (findAndRemoveDuplicates digest oracle input).marked,
        e.original ∈ (findAndRemoveDuplicates digest oracle input).seen.map Prod.snd ∧
          e.original.createdAt ≤ e.article.createdAt) ∧
    (∀ (input : List Article) (digest : String → String)
        (oracle : Article → DuplicationResult),
      input.Perm [sweepA1, sweepA2, sweepA3] →
      hashEq (contentHashOf digest sweepA3) (contentHashOf digest sweepA1) = false →
      oracle sweepA3 = ⟨false, none, none, "none", []⟩ →
      findAndRemoveDuplicates digest oracle input =
        ⟨[(contentHashOf digest sweepA1, sweepA1),
          (contentHashOf digest sweepA3, sweepA3)],
          [⟨sweepA2, sweepA1, "advanced_title_match", mkRat 9 10⟩]⟩) := by
  constructor
  · intro digest oracle input
    constructor
    · have h1 := sweep_partition digest oracle
        (List.insertionSort (fun x y : Article => x.createdAt ≤ y.createdAt) input)
        ⟨[], []⟩
      exact h1.trans (List.perm_insertionSort _ input)
    · intro e he
      exact sweep_originals digest oracle
        (List.insertionSort (fun x y : Article => x.createdAt ≤ y.createdAt) input)
        ⟨[], []⟩ (fun e' he' => absurd he' (List.not_mem_nil e'))
        (fun x hx => absurd hx (List.not_mem_nil x))
        (insertionSort_createdAt_pairwise input) e he
  · exact sweep_scenarioD

/-- Witness for C9: the concrete scenario with the identity digest, an oracle
reporting no duplicates, and the input in neither creation nor reverse order. -/
theorem C9_sweep_ordering_witness :
    findAndRemoveDuplicates (fun s => s)
        (fun _ => ⟨false, none, none, "none", []⟩) [sweepA3, sweepA1, sweepA2] =
      ⟨[(contentHashOf (fun s => s) sweepA1, sweepA1),
        (contentHashOf (fun s => s) sweepA3, sweepA3)],
        [⟨sweepA2, sweepA1, "advanced_title_match", mkRat 9 10⟩]⟩ := by
  exact C9_sweep_ordering.2 [sweepA3, sweepA1, sweepA2] (fun s => s)
    (fun _ => ⟨false, none, none, "none", []⟩) (by decide) (by decide) rfl
